import Mathlib

/-!
Verification of the gost Redis storage/query layer (`db/redis.go`).

The Go driver is shallowly embedded: the Redis store becomes an explicit
state record (hash fields, sorted sets, per-key expiry), each write command
issued by the driver becomes a `Cmd`, and the insert functions become the
command streams the Go code sends, executed batch by batch.  The readers
(`GetRedhat`, `GetDebian`, `getCvesDebianWithFixStatus`, ...) are translated
directly from the source as pure functions over the state.
-/

set_option autoImplicit false

namespace Gost

/-- Modelled from the spec (the `models` package is not among the provided
sources): a Red Hat package state entry with a CPE platform identifier,
package name and fix state, as used by `GetUnfixedCvesRedhat`. -/
structure RedhatPackageState where
  cpe : String
  packageName : String
  fixState : String
deriving DecidableEq, Repr

/-- Modelled from the spec: a Red Hat CVE document, identifier plus the list
of `PackageState` entries (the only fields the storage layer inspects). -/
structure RedhatCVE where
  name : String
  packageState : List RedhatPackageState
deriving DecidableEq, Repr

/-- Modelled from the spec: a Debian release entry (release codename and
status). -/
structure DebianRelease where
  productName : String
  status : String
deriving DecidableEq, Repr

/-- Modelled from the spec: a Debian package sub-entry with its release
entries. -/
structure DebianPackage where
  packageName : String
  release : List DebianRelease
deriving DecidableEq, Repr

/-- Modelled from the spec: a Debian CVE document. -/
structure DebianCVE where
  cveID : String
  package : List DebianPackage
deriving DecidableEq, Repr

/-- Modelled from the spec: an Ubuntu release patch entry (release codename
and status). -/
structure UbuntuReleasePatch where
  releaseName : String
  status : String
deriving DecidableEq, Repr

/-- Modelled from the spec: an Ubuntu patch sub-entry with its release
patches. -/
structure UbuntuPatch where
  packageName : String
  releasePatches : List UbuntuReleasePatch
deriving DecidableEq, Repr

/-- Modelled from the spec: an Ubuntu CVE document (identifier is the
"candidate"). -/
structure UbuntuCVE where
  candidate : String
  patches : List UbuntuPatch
deriving DecidableEq, Repr

/-- Modelled from the spec: a Microsoft KBID reference. -/
structure MicrosoftKBID where
  kbID : String
deriving DecidableEq, Repr

/-- Modelled from the spec: a Microsoft product (identifier and display
name), used by the product-identifier index. -/
structure MicrosoftProduct where
  productID : String
  productName : String
deriving DecidableEq, Repr

/-- Modelled from the spec: a Microsoft CVE document with its KBID
references. -/
structure MicrosoftCVE where
  cveID : String
  kbIDs : List MicrosoftKBID
deriving DecidableEq, Repr

/-- A value stored in a vendor field of a primary hash record.  The Go code
stores the JSON serialization; decoding as the wrong vendor type fails,
which the embedding captures by tagging the stored document. -/
inductive VendorDoc where
  | redhat : RedhatCVE → VendorDoc
  | debian : DebianCVE → VendorDoc
  | ubuntu : UbuntuCVE → VendorDoc
  | microsoft : MicrosoftCVE → VendorDoc
deriving DecidableEq, Repr

/-- The Redis store state visible to this driver: hash fields
(key → field → value), sorted sets (key → members in insertion order with
their scores) and the per-key expiry (`none` = persistent, `some n` =
expires in `n` seconds). -/
structure RedisState where
  hash : String → String → Option VendorDoc
  zset : String → List (String × Int)
  ttl : String → Option Nat

/-- The empty store. -/
def emptyState : RedisState :=
  { hash := fun _ _ => none, zset := fun _ => [], ttl := fun _ => none }

def hashKeyPrefix : String := "CVE#"
def zindRedHatPrefix : String := "CVE#R#"
def zindDebianPrefix : String := "CVE#D#"
def zindUbuntuPrefix : String := "CVE#U#"
def zindMicrosoftKBIDPrefix : String := "CVE#K#"
def zindMicrosoftProductIDPrefix : String := "CVE#P#"

/-- A single Redis command issued by the driver's write path. -/
inductive Cmd where
  | hset (key field : String) (doc : VendorDoc)
  | expire (key : String) (secs : Nat)
  | persist (key : String)
  | zadd (key member : String) (score : Int)
deriving DecidableEq, Repr

/-- The key a command addresses. -/
def cmdKey : Cmd → String
  | .hset k _ _ => k
  | .expire k _ => k
  | .persist k => k
  | .zadd k _ _ => k

/-- ZADD semantics on the member list: update the score of an existing
member in place, otherwise append the new member. -/
def zaddList (l : List (String × Int)) (member : String) (score : Int) :
    List (String × Int) :=
  if l.any (fun p => p.1 == member) then
    l.map (fun p => if p.1 == member then (member, score) else p)
  else
    l ++ [(member, score)]

/-- Effect of one command on the store. -/
def applyCmd (st : RedisState) : Cmd → RedisState
  | .hset key field doc =>
    { st with hash := fun k f => if k = key ∧ f = field then some doc else st.hash k f }
  | .expire key secs =>
    { st with ttl := fun k => if k = key then some secs else st.ttl k }
  | .persist key =>
    { st with ttl := fun k => if k = key then none else st.ttl k }
  | .zadd key member score =>
    { st with zset := fun k => if k = key then zaddList (st.zset k) member score else st.zset k }

/-- Effect of a command batch (a pipeline), applied in program order. -/
def applyCmds (st : RedisState) (cs : List Cmd) : RedisState :=
  cs.foldl applyCmd st

/-- Execute a sequence of batches, each tagged with the outcome of its
`Exec`: a failing batch aborts the whole call with an error, leaving the
effects of the earlier, already-executed batches in place. -/
def execBatches (st : RedisState) : List (List Cmd × Bool) → RedisState × Bool
  | [] => (st, true)
  | (b, ok) :: rest => if ok then execBatches (applyCmds st b) rest else (st, false)

/-- The retention commands issued after every key write: an `EXPIRE` when
the process-wide `expire` setting is positive, a `PERSIST` when it is
zero (from `InsertRedhat` and its siblings). -/
def retentionCmds (expire : Nat) (key : String) : List Cmd :=
  if 0 < expire then [Cmd.expire key expire] else [Cmd.persist key]

/-- The secondary-index commands for a list of (index key, member) pairs:
a `ZADD` with score 0 followed by the retention commands, per pair, in
order (the per-package/per-product loop shared by all Insert functions). -/
def zindexCmds (expire : Nat) (pairs : List (String × String)) : List Cmd :=
  (pairs.map (fun kv => Cmd.zadd kv.1 kv.2 0 :: retentionCmds expire kv.1)).flatten

/-- One record's pipeline: `HSET` of the vendor field on the primary key,
retention on the primary key, then the secondary-index commands. -/
def recordBatch (expire : Nat) (primaryKey field : String) (doc : VendorDoc)
    (pairs : List (String × String)) : List Cmd :=
  Cmd.hset primaryKey field doc :: retentionCmds expire primaryKey
    ++ zindexCmds expire pairs

/-- The pipeline `InsertRedhat` builds for one converted Red Hat CVE. -/
def redhatRecordBatch (expire : Nat) (cve : RedhatCVE) : List Cmd :=
  recordBatch expire (hashKeyPrefix ++ cve.name) "RedHat" (VendorDoc.redhat cve)
    (cve.packageState.map (fun pkg => (zindRedHatPrefix ++ pkg.packageName, cve.name)))

/-- The pipeline `InsertDebian` builds for one converted Debian CVE. -/
def debianRecordBatch (expire : Nat) (cve : DebianCVE) : List Cmd :=
  recordBatch expire (hashKeyPrefix ++ cve.cveID) "Debian" (VendorDoc.debian cve)
    (cve.package.map (fun pkg => (zindDebianPrefix ++ pkg.packageName, cve.cveID)))

/-- The pipeline `InsertUbuntu` builds for one converted Ubuntu CVE. -/
def ubuntuRecordBatch (expire : Nat) (cve : UbuntuCVE) : List Cmd :=
  recordBatch expire (hashKeyPrefix ++ cve.candidate) "Ubuntu" (VendorDoc.ubuntu cve)
    (cve.patches.map (fun pkg => (zindUbuntuPrefix ++ pkg.packageName, cve.candidate)))

/-- The pipeline `InsertMicrosoft` builds for one converted Microsoft CVE
(KBID index entries). -/
def microsoftRecordBatch (expire : Nat) (cve : MicrosoftCVE) : List Cmd :=
  recordBatch expire (hashKeyPrefix ++ cve.cveID) "Microsoft" (VendorDoc.microsoft cve)
    (cve.kbIDs.map (fun kb => (zindMicrosoftKBIDPrefix ++ kb.kbID, cve.cveID)))

/-- The first-pass pipeline of `InsertMicrosoft`: the product-identifier →
product-name index entries for every product, with retention, in one
batch of its own. -/
def microsoftProductBatch (expire : Nat) (products : List MicrosoftProduct) : List Cmd :=
  zindexCmds expire
    (products.map (fun p => (zindMicrosoftProductIDPrefix ++ p.productID, p.productName)))

/-- The per-record batches of `InsertRedhat`, in input order. -/
def redhatBatches (expire : Nat) (cves : List RedhatCVE) : List (List Cmd) :=
  cves.map (redhatRecordBatch expire)

/-- The per-record batches of `InsertDebian`, in input order. -/
def debianBatches (expire : Nat) (cves : List DebianCVE) : List (List Cmd) :=
  cves.map (debianRecordBatch expire)

/-- The per-record batches of `InsertUbuntu`, in input order. -/
def ubuntuBatches (expire : Nat) (cves : List UbuntuCVE) : List (List Cmd) :=
  cves.map (ubuntuRecordBatch expire)

/-- All batches of `InsertMicrosoft`: the product-index batch first, then
one batch per CVE record. -/
def insertMicrosoftBatches (expire : Nat) (cves : List MicrosoftCVE)
    (products : List MicrosoftProduct) : List (List Cmd) :=
  microsoftProductBatch expire products :: cves.map (microsoftRecordBatch expire)

/-- `InsertRedhat` on the success path: every per-record pipeline executes. -/
def InsertRedhat (st : RedisState) (expire : Nat) (cves : List RedhatCVE) : RedisState :=
  (redhatBatches expire cves).foldl applyCmds st

/-- `InsertDebian` on the success path. -/
def InsertDebian (st : RedisState) (expire : Nat) (cves : List DebianCVE) : RedisState :=
  (debianBatches expire cves).foldl applyCmds st

/-- `InsertUbuntu` on the success path. -/
def InsertUbuntu (st : RedisState) (expire : Nat) (cves : List UbuntuCVE) : RedisState :=
  (ubuntuBatches expire cves).foldl applyCmds st

/-- `InsertMicrosoft` on the success path. -/
def InsertMicrosoft (st : RedisState) (expire : Nat) (cves : List MicrosoftCVE)
    (products : List MicrosoftProduct) : RedisState :=
  (insertMicrosoftBatches expire cves products).foldl applyCmds st

/-- Decoding a stored value as a Red Hat document (`json.Unmarshal` into
`models.RedhatCVE`); any other stored shape is a decode failure. -/
def decodeRedhat : VendorDoc → Option RedhatCVE
  | .redhat r => some r
  | _ => none

/-- Decoding a stored value as a Debian document. -/
def decodeDebian : VendorDoc → Option DebianCVE
  | .debian d => some d
  | _ => none

/-- Decoding a stored value as an Ubuntu document. -/
def decodeUbuntu : VendorDoc → Option UbuntuCVE
  | .ubuntu u => some u
  | _ => none

/-- Decoding a stored value as a Microsoft document. -/
def decodeMicrosoft : VendorDoc → Option MicrosoftCVE
  | .microsoft m => some m
  | _ => none

/-- `GetRedhat`: read the primary hash; if the "RedHat" field is absent the
zero-valued document is returned; a decode failure yields no result
(`nil`). -/
def GetRedhat (st : RedisState) (cveID : String) : Option RedhatCVE :=
  match st.hash (hashKeyPrefix ++ cveID) "RedHat" with
  | some d => decodeRedhat d
  | none => some { name := "", packageState := [] }

/-- `GetDebian`: read the primary hash; if the "Debian" field is absent the
function returns `nil` (no result), unlike `GetRedhat`. -/
def GetDebian (st : RedisState) (cveID : String) : Option DebianCVE :=
  match st.hash (hashKeyPrefix ++ cveID) "Debian" with
  | some d => decodeDebian d
  | none => none

/-- `GetUbuntu`: read the primary hash; if the "Ubuntu" field is absent the
function returns `nil` (no result). -/
def GetUbuntu (st : RedisState) (cveID : String) : Option UbuntuCVE :=
  match st.hash (hashKeyPrefix ++ cveID) "Ubuntu" with
  | some d => decodeUbuntu d
  | none => none

/-- `GetMicrosoft`: read the primary hash; if the "Microsoft" field is
absent the zero-valued document is returned. -/
def GetMicrosoft (st : RedisState) (cveID : String) : Option MicrosoftCVE :=
  match st.hash (hashKeyPrefix ++ cveID) "Microsoft" with
  | some d => decodeMicrosoft d
  | none => some { cveID := "", kbIDs := [] }

/-- `ZRANGE key 0 -1`: the member list of a sorted-set key. -/
def zrangeMembers (st : RedisState) (key : String) : List String :=
  (st.zset key).map Prod.fst

/-- Outcome of a pipelined multi-read `Exec`: success, the key-absent
sentinel (`redis.Nil`), or any other failure. -/
inductive PipeExec where
  | ok
  | keyAbsent
  | failed
deriving DecidableEq, Repr

/-- Collect the per-identifier results of a multi-get; a single decode
failure makes the whole call yield no results, as in the Go loop. -/
def multiCollect {α : Type} (f : String → Option α) : List String → Option (List (String × α))
  | [] => some []
  | id :: rest =>
    match f id with
    | none => none
    | some doc =>
      match multiCollect f rest with
      | none => none
      | some acc => some ((id, doc) :: acc)

/-- `GetRedhatMulti`: one pipelined `HGETALL` per identifier; a batch
failure other than `redis.Nil` yields no results; each present identifier
decodes exactly as `GetRedhat` does (absent field → zero-valued document). -/
def GetRedhatMulti (st : RedisState) (e : PipeExec) (cveIDs : List String) :
    Option (List (String × RedhatCVE)) :=
  match e with
  | .failed => none
  | _ =>
    multiCollect
      (fun cveID =>
        match st.hash (hashKeyPrefix ++ cveID) "RedHat" with
        | some d => decodeRedhat d
        | none => some { name := "", packageState := [] })
      cveIDs.dedup

/-- `GetMicrosoftMulti`: as `GetRedhatMulti` for the "Microsoft" field. -/
def GetMicrosoftMulti (st : RedisState) (e : PipeExec) (cveIDs : List String) :
    Option (List (String × MicrosoftCVE)) :=
  match e with
  | .failed => none
  | _ =>
    multiCollect
      (fun cveID =>
        match st.hash (hashKeyPrefix ++ cveID) "Microsoft" with
        | some d => decodeMicrosoft d
        | none => some { cveID := "", kbIDs := [] })
      cveIDs.dedup

/-- The CPE platform string `GetUnfixedCvesRedhat` builds from the major
version. -/
def redhatCPE (major : String) : String :=
  "cpe:/o:redhat:enterprise_linux:" ++ major

/-- The per-entry test of `GetUnfixedCvesRedhat`'s loop: skip an entry
whose CPE or package name differs or whose fix state is "Not affected" or
"New", and skip "Will not fix" entries when `ignoreWillNotFix` is set. -/
def redhatKeepFn (cpe pkgName : String) (ignoreWillNotFix : Bool)
    (pkgstat : RedhatPackageState) : Bool :=
  if pkgstat.cpe != cpe || pkgstat.packageName != pkgName
      || pkgstat.fixState == "Not affected" || pkgstat.fixState == "New" then
    false
  else if ignoreWillNotFix && pkgstat.fixState == "Will not fix" then
    false
  else
    true

/-- `GetUnfixedCvesRedhat`: resolve the package index, load each candidate,
and keep exactly the package states matching the CPE and package name whose
fix state is neither "Not affected" nor "New", dropping "Will not fix"
entries only when `ignoreWillNotFix` is set; candidates with no surviving
entries are omitted. -/
def GetUnfixedCvesRedhat (st : RedisState) (major pkgName : String)
    (ignoreWillNotFix : Bool) : List (String × RedhatCVE) :=
  (zrangeMembers st (zindRedHatPrefix ++ pkgName)).filterMap fun cveID =>
    match GetRedhat st cveID with
    | none => none
    | some red =>
      let pkgStats := red.packageState.filter
        (redhatKeepFn (redhatCPE major) pkgName ignoreWillNotFix)
      if pkgStats = [] then none
      else some (cveID, { red with packageState := pkgStats })

/-- Modelled from the spec: the Debian codename table `debVerCodename` is
defined outside the provided sources; the spec gives the mapping shape
majorVersion → codename with the example "12" → "bookworm". -/
def debVerCodename (major : String) : Option String :=
  if major = "10" then some "buster"
  else if major = "11" then some "bullseye"
  else if major = "12" then some "bookworm"
  else none

/-- Modelled from the spec: the Ubuntu codename table `ubuntuVerCodename`
is defined outside the provided sources; the spec gives the mapping shape
majorVersion → codename with the example "20.04" → "focal". -/
def ubuntuVerCodename (major : String) : Option String :=
  if major = "20.04" then some "focal"
  else if major = "22.04" then some "jammy"
  else none

/-- The per-package body of `getCvesDebianWithFixStatus`'s loop: skip a
sub-entry whose package name differs, keep within it only the release
entries matching the codename and the wanted status, and drop the
sub-entry when no release entry survives. -/
def debianNarrowPkg (pkgName codeName fixStatus : String) (pkg : DebianPackage) :
    Option DebianPackage :=
  if pkg.packageName != pkgName then none
  else
    let rels := pkg.release.filter fun rel =>
      rel.productName == codeName && rel.status == fixStatus
    if rels = [] then none
    else some { pkg with release := rels }

/-- `getCvesDebianWithFixStatus`: resolve the codename, read the package
index, and narrow each candidate document to the sub-entries for
`pkgName` whose release entries match the codename and the wanted status. -/
def getCvesDebianWithFixStatus (st : RedisState) (major pkgName fixStatus : String) :
    List (String × DebianCVE) :=
  match debVerCodename major with
  | none => []
  | some codeName =>
    (zrangeMembers st (zindDebianPrefix ++ pkgName)).filterMap fun cveID =>
      match GetDebian st cveID with
      | none => none
      | some deb =>
        let pkgs := deb.package.filterMap (debianNarrowPkg pkgName codeName fixStatus)
        if pkgs = [] then none
        else some (cveID, { deb with package := pkgs })

/-- `GetUnfixedCvesDebian`: status "open". -/
def GetUnfixedCvesDebian (st : RedisState) (major pkgName : String) :
    List (String × DebianCVE) :=
  getCvesDebianWithFixStatus st major pkgName "open"

/-- `GetFixedCvesDebian`: status "resolved". -/
def GetFixedCvesDebian (st : RedisState) (major pkgName : String) :
    List (String × DebianCVE) :=
  getCvesDebianWithFixStatus st major pkgName "resolved"

/-- The per-patch body of `getCvesUbuntuWithFixStatus`'s loop: skip a
sub-entry whose package name differs; within it the Go double loop
appends the release patch once per wanted status equal to its status, and
the sub-entry is dropped when no release patch survives. -/
def ubuntuNarrowPatch (pkgName codeName : String) (fixStatus : List String)
    (p : UbuntuPatch) : Option UbuntuPatch :=
  if p.packageName != pkgName then none
  else
    let relPatches := p.releasePatches.flatMap fun relPatch =>
      if relPatch.releaseName == codeName then
        fixStatus.filterMap fun s =>
          if s == relPatch.status then some relPatch else none
      else []
    if relPatches = [] then none
    else some { p with releasePatches := relPatches }

/-- `getCvesUbuntuWithFixStatus`: as the Debian reader, with a list of
wanted statuses. -/
def getCvesUbuntuWithFixStatus (st : RedisState) (major pkgName : String)
    (fixStatus : List String) : List (String × UbuntuCVE) :=
  match ubuntuVerCodename major with
  | none => []
  | some codeName =>
    (zrangeMembers st (zindUbuntuPrefix ++ pkgName)).filterMap fun cveID =>
      match GetUbuntu st cveID with
      | none => none
      | some cve =>
        let patches := cve.patches.filterMap (ubuntuNarrowPatch pkgName codeName fixStatus)
        if patches = [] then none
        else some (cveID, { cve with patches := patches })

/-- `GetUnfixedCvesUbuntu`: statuses "needed" and "pending". -/
def GetUnfixedCvesUbuntu (st : RedisState) (major pkgName : String) :
    List (String × UbuntuCVE) :=
  getCvesUbuntuWithFixStatus st major pkgName ["needed", "pending"]

/-- `GetFixedCvesUbuntu`: status "released". -/
def GetFixedCvesUbuntu (st : RedisState) (major pkgName : String) :
    List (String × UbuntuCVE) :=
  getCvesUbuntuWithFixStatus st major pkgName ["released"]

/-! ## Predicates on commands and key sets -/

/-- Retention value the spec expects after a write: a TTL of `expire`
seconds when positive, persistence (no expiry) when zero. -/
def expectedTTL (expire : Nat) : Option Nat :=
  if 0 < expire then some expire else none

/-- A command is retention-consistent with the process-wide setting:
`EXPIRE` commands carry exactly the positive setting, `PERSIST` commands
occur only when the setting is zero. -/
def RetentionOK (expire : Nat) : Cmd → Prop
  | .expire _ secs => secs = expire ∧ 0 < expire
  | .persist _ => expire = 0
  | _ => True

/-- The command sets or clears the expiry of key `k`. -/
def TouchesTTL (k : String) : Cmd → Prop
  | .expire key _ => key = k
  | .persist key => key = k
  | _ => False

/-- Every `ZADD` in the stream carries score 0. -/
def ZScore0 : Cmd → Prop
  | .zadd _ _ s => s = 0
  | _ => True

/-- Every `HSET` in the stream writes the field `fld`. -/
def HashFieldOnly (fld : String) : Cmd → Prop
  | .hset _ f _ => f = fld
  | _ => True

/-- Every `ZADD` in the stream addresses a key satisfying `P`. -/
def ZKeysIn (P : String → Prop) : Cmd → Prop
  | .zadd key _ _ => P key
  | _ => True

/-- Every `EXPIRE`/`PERSIST` in the stream addresses a key satisfying `P`. -/
def TTLKeysIn (P : String → Prop) : Cmd → Prop
  | .expire key _ => P key
  | .persist key => P key
  | _ => True

/-- Primary hash keys written by `InsertRedhat` for the given records. -/
def redhatPrimaryKeys (cves : List RedhatCVE) : List String :=
  cves.map (fun cve => hashKeyPrefix ++ cve.name)

/-- Secondary-index keys written by `InsertRedhat` for the given records. -/
def redhatIndexKeys (cves : List RedhatCVE) : List String :=
  cves.flatMap (fun cve => cve.packageState.map (fun pkg => zindRedHatPrefix ++ pkg.packageName))

/-- Primary hash keys written by `InsertDebian`. -/
def debianPrimaryKeys (cves : List DebianCVE) : List String :=
  cves.map (fun cve => hashKeyPrefix ++ cve.cveID)

/-- Secondary-index keys written by `InsertDebian`. -/
def debianIndexKeys (cves : List DebianCVE) : List String :=
  cves.flatMap (fun cve => cve.package.map (fun pkg => zindDebianPrefix ++ pkg.packageName))

/-- Primary hash keys written by `InsertUbuntu`. -/
def ubuntuPrimaryKeys (cves : List UbuntuCVE) : List String :=
  cves.map (fun cve => hashKeyPrefix ++ cve.candidate)

/-- Secondary-index keys written by `InsertUbuntu`. -/
def ubuntuIndexKeys (cves : List UbuntuCVE) : List String :=
  cves.flatMap (fun cve => cve.patches.map (fun pkg => zindUbuntuPrefix ++ pkg.packageName))

/-- Primary hash keys written by `InsertMicrosoft`. -/
def microsoftPrimaryKeys (cves : List MicrosoftCVE) : List String :=
  cves.map (fun cve => hashKeyPrefix ++ cve.cveID)

/-- KBID index keys written by `InsertMicrosoft`. -/
def microsoftKBIDKeys (cves : List MicrosoftCVE) : List String :=
  cves.flatMap (fun cve => cve.kbIDs.map (fun kb => zindMicrosoftKBIDPrefix ++ kb.kbID))

/-- Product index keys written by `InsertMicrosoft`. -/
def microsoftProductKeys (products : List MicrosoftProduct) : List String :=
  products.map (fun p => zindMicrosoftProductIDPrefix ++ p.productID)

/-! ## Concrete fixtures used to evaluate the definitions -/

/-- A sample Red Hat package state in fix state "Affected". -/
def redExPkg : RedhatPackageState :=
  { cpe := "cpe:/o:redhat:enterprise_linux:9", packageName := "bash",
    fixState := "Affected" }

/-- A sample Red Hat document with one entry per interesting fix state. -/
def redEx : RedhatCVE :=
  { name := "CVE-2024-1000"
    packageState :=
      [ redExPkg
      , { cpe := "cpe:/o:redhat:enterprise_linux:9", packageName := "bash",
          fixState := "Will not fix" }
      , { cpe := "cpe:/o:redhat:enterprise_linux:9", packageName := "bash",
          fixState := "Not affected" } ] }

/-- A sample Debian document with an open and a resolved release entry. -/
def debEx : DebianCVE :=
  { cveID := "CVE-2024-2000"
    package :=
      [ { packageName := "bash"
          release :=
            [ { productName := "bookworm", status := "open" }
            , { productName := "bookworm", status := "resolved" } ] } ] }

/-- A sample Ubuntu document with a needed and a released patch entry. -/
def ubuEx : UbuntuCVE :=
  { candidate := "CVE-2024-3000"
    patches :=
      [ { packageName := "bash"
          releasePatches :=
            [ { releaseName := "focal", status := "needed" }
            , { releaseName := "focal", status := "released" } ] } ] }

/-- A sample Microsoft document with one KBID. -/
def msEx : MicrosoftCVE :=
  { cveID := "CVE-2024-4000", kbIDs := [ { kbID := "5001234" } ] }

/-- A sample Microsoft product. -/
def msProdEx : MicrosoftProduct :=
  { productID := "11762", productName := "Microsoft Word 2016" }

/-- A store holding `redEx` under its primary key with the matching
package index entry. -/
def stRed : RedisState :=
  { hash := fun k f =>
      if k = "CVE#CVE-2024-1000" ∧ f = "RedHat" then some (VendorDoc.redhat redEx) else none
    zset := fun k => if k = "CVE#R#bash" then [("CVE-2024-1000", 0)] else []
    ttl := fun _ => none }

/-- A store holding `debEx` under its primary key with the matching
package index entry. -/
def stDeb : RedisState :=
  { hash := fun k f =>
      if k = "CVE#CVE-2024-2000" ∧ f = "Debian" then some (VendorDoc.debian debEx) else none
    zset := fun k => if k = "CVE#D#bash" then [("CVE-2024-2000", 0)] else []
    ttl := fun _ => none }

/-- A store holding `ubuEx` under its primary key with the matching
package index entry. -/
def stUbu : RedisState :=
  { hash := fun k f =>
      if k = "CVE#CVE-2024-3000" ∧ f = "Ubuntu" then some (VendorDoc.ubuntu ubuEx) else none
    zset := fun k => if k = "CVE#U#bash" then [("CVE-2024-3000", 0)] else []
    ttl := fun _ => none }

/-! ## Generic lemmas about command streams -/

lemma ttl_applyCmd_pres {expire : Nat} {c : Cmd} (h : RetentionOK expire c)
    (st : RedisState) (k : String) (hk : st.ttl k = expectedTTL expire) :
    (applyCmd st c).ttl k = expectedTTL expire := by
  cases c with
  | hset key f d => simpa [applyCmd] using hk
  | expire key secs =>
    obtain ⟨hs, hpos⟩ := h
    subst hs
    simp only [applyCmd]
    by_cases hkey : k = key
    · simp [hkey, expectedTTL, hpos]
    · simp [hkey, hk]
  | persist key =>
    simp only [applyCmd]
    by_cases hkey : k = key
    · have h0 : expire = 0 := h
      simp [hkey, expectedTTL, h0]
    · simp [hkey, hk]
  | zadd key m s => simpa [applyCmd] using hk

lemma ttl_applyCmd_touch {expire : Nat} {c : Cmd} (h : RetentionOK expire c)
    {k : String} (ht : TouchesTTL k c) (st : RedisState) :
    (applyCmd st c).ttl k = expectedTTL expire := by
  cases c with
  | hset key f d => exact absurd ht (by simp [TouchesTTL])
  | expire key secs =>
    obtain ⟨hs, hpos⟩ := h
    subst hs
    have hkey : key = k := ht
    simp [applyCmd, hkey, expectedTTL, hpos]
  | persist key =>
    have h0 : expire = 0 := h
    have hkey : key = k := ht
    simp [applyCmd, hkey, expectedTTL, h0]
  | zadd key m s => exact absurd ht (by simp [TouchesTTL])

lemma ttl_applyCmds_pres {expire : Nat} {k : String} :
    ∀ (cs : List Cmd) (st : RedisState), (∀ c ∈ cs, RetentionOK expire c) →
      st.ttl k = expectedTTL expire → (applyCmds st cs).ttl k = expectedTTL expire := by
  intro cs
  induction cs with
  | nil => intro st _ hk; exact hk
  | cons c rest ih =>
    intro st hall hk
    have hc := hall c (by simp)
    have hrest : ∀ c ∈ rest, RetentionOK expire c := fun c hmem => hall c (by simp [hmem])
    exact ih (applyCmd st c) hrest (ttl_applyCmd_pres hc st k hk)

lemma ttl_applyCmds_set {expire : Nat} {k : String} :
    ∀ (cs : List Cmd) (st : RedisState), (∀ c ∈ cs, RetentionOK expire c) →
      (∃ c ∈ cs, TouchesTTL k c) → (applyCmds st cs).ttl k = expectedTTL expire := by
  intro cs
  induction cs with
  | nil => intro st _ hex; exact absurd hex (by simp)
  | cons c rest ih =>
    intro st hall hex
    have hc := hall c (by simp)
    have hrest : ∀ c ∈ rest, RetentionOK expire c := fun c hmem => hall c (by simp [hmem])
    obtain ⟨c', hc', ht⟩ := hex
    rcases List.mem_cons.1 hc' with rfl | hmem
    · exact ttl_applyCmds_pres rest (applyCmd st c') hrest (ttl_applyCmd_touch hc ht st)
    · exact ih (applyCmd st c) hrest ⟨c', hmem, ht⟩

lemma ttl_batches_pres {expire : Nat} {k : String} :
    ∀ (bs : List (List Cmd)) (st : RedisState),
      (∀ b ∈ bs, ∀ c ∈ b, RetentionOK expire c) →
      st.ttl k = expectedTTL expire →
      (bs.foldl applyCmds st).ttl k = expectedTTL expire := by
  intro bs
  induction bs with
  | nil => intro st _ hk; exact hk
  | cons b rest ih =>
    intro st hall hk
    exact ih (applyCmds st b) (fun b' hb' => hall b' (by simp [hb']))
      (ttl_applyCmds_pres b st (hall b (by simp)) hk)

lemma ttl_batches_set {expire : Nat} {k : String} :
    ∀ (bs : List (List Cmd)) (st : RedisState),
      (∀ b ∈ bs, ∀ c ∈ b, RetentionOK expire c) →
      (∃ b ∈ bs, ∃ c ∈ b, TouchesTTL k c) →
      (bs.foldl applyCmds st).ttl k = expectedTTL expire := by
  intro bs
  induction bs with
  | nil => intro st _ hex; exact absurd hex (by simp)
  | cons b rest ih =>
    intro st hall hex
    obtain ⟨b', hb', hc⟩ := hex
    rcases List.mem_cons.1 hb' with rfl | hmem
    · exact ttl_batches_pres rest (applyCmds st b')
        (fun b'' hb'' => hall b'' (by simp [hb'']))
        (ttl_applyCmds_set b' st (hall b' (by simp)) hc)
    · exact ih (applyCmds st b) (fun b'' hb'' => hall b'' (by simp [hb''])) ⟨b', hmem, hc⟩

lemma zaddList_mem_self (l : List (String × Int)) (m : String) (s : Int) :
    (m, s) ∈ zaddList l m s := by
  unfold zaddList
  by_cases h : l.any (fun p => p.1 == m)
  · rcases List.any_eq_true.1 h with ⟨p, hp, hpm⟩
    simp only [h, if_true]
    exact List.mem_map.2 ⟨p, hp, by simp [hpm]⟩
  · simp [h]

lemma zaddList_mem_zero (l : List (String × Int)) (m m' : String)
    (h : (m, (0 : Int)) ∈ l) : (m, (0 : Int)) ∈ zaddList l m' 0 := by
  unfold zaddList
  by_cases ha : l.any (fun p => p.1 == m')
  · simp only [ha, if_true]
    refine List.mem_map.2 ⟨(m, 0), h, ?_⟩
    by_cases h2 : m = m' <;> simp [h2]
  · simp only [ha, if_false]
    exact List.mem_append_left _ h

lemma zmem_applyCmd {c : Cmd} (h : ZScore0 c) {st : RedisState} {k m : String}
    (hm : (m, (0 : Int)) ∈ st.zset k) : (m, (0 : Int)) ∈ (applyCmd st c).zset k := by
  cases c with
  | hset key f d => simpa [applyCmd] using hm
  | expire key secs => simpa [applyCmd] using hm
  | persist key => simpa [applyCmd] using hm
  | zadd key mem s =>
    have hs : s = 0 := h
    subst hs
    simp only [applyCmd]
    by_cases hkey : k = key
    · simp only [hkey, if_true]
      exact zaddList_mem_zero _ _ _ (hkey ▸ hm)
    · simp [hkey, hm]

lemma zmem_applyCmds_pres {k m : String} :
    ∀ (cs : List Cmd) (st : RedisState), (∀ c ∈ cs, ZScore0 c) →
      (m, (0 : Int)) ∈ st.zset k → (m, (0 : Int)) ∈ (applyCmds st cs).zset k := by
  intro cs
  induction cs with
  | nil => intro st _ hm; exact hm
  | cons c rest ih =>
    intro st hall hm
    exact ih (applyCmd st c) (fun c' hc' => hall c' (by simp [hc']))
      (zmem_applyCmd (hall c (by simp)) hm)

lemma zmem_applyCmds_set {k m : String} :
    ∀ (cs : List Cmd) (st : RedisState), (∀ c ∈ cs, ZScore0 c) →
      Cmd.zadd k m 0 ∈ cs → (m, (0 : Int)) ∈ (applyCmds st cs).zset k := by
  intro cs
  induction cs with
  | nil => intro st _ hm; exact absurd hm (by simp)
  | cons c rest ih =>
    intro st hall hm
    have hrest : ∀ c' ∈ rest, ZScore0 c' := fun c' hc' => hall c' (by simp [hc'])
    rcases List.mem_cons.1 hm with heq | hmem
    · cases heq
      refine zmem_applyCmds_pres rest _ hrest ?_
      simpa [applyCmd] using zaddList_mem_self (st.zset k) m 0
    · exact ih (applyCmd st c) hrest hmem

lemma zmem_batches_pres {k m : String} :
    ∀ (bs : List (List Cmd)) (st : RedisState),
      (∀ b ∈ bs, ∀ c ∈ b, ZScore0 c) →
      (m, (0 : Int)) ∈ st.zset k →
      (m, (0 : Int)) ∈ (bs.foldl applyCmds st).zset k := by
  intro bs
  induction bs with
  | nil => intro st _ hm; exact hm
  | cons b rest ih =>
    intro st hall hm
    exact ih (applyCmds st b) (fun b' hb' => hall b' (by simp [hb']))
      (zmem_applyCmds_pres b st (hall b (by simp)) hm)

lemma zmem_batches_set {k m : String} :
    ∀ (bs : List (List Cmd)) (st : RedisState),
      (∀ b ∈ bs, ∀ c ∈ b, ZScore0 c) →
      (∃ b ∈ bs, Cmd.zadd k m 0 ∈ b) →
      (m, (0 : Int)) ∈ (bs.foldl applyCmds st).zset k := by
  intro bs
  induction bs with
  | nil => intro st _ hex; exact absurd hex (by simp)
  | cons b rest ih =>
    intro st hall hex
    obtain ⟨b', hb', hc⟩ := hex
    rcases List.mem_cons.1 hb' with rfl | hmem
    · exact zmem_batches_pres rest (applyCmds st b')
        (fun b'' hb'' => hall b'' (by simp [hb'']))
        (zmem_applyCmds_set b' st (hall b' (by simp)) hc)
    · exact ih (applyCmds st b) (fun b'' hb'' => hall b'' (by simp [hb''])) ⟨b', hmem, hc⟩

/-! ## Frame lemmas: what a command stream cannot change -/

lemma ZKeysIn_mono {P Q : String → Prop} (h : ∀ k, P k → Q k) :
    ∀ c : Cmd, ZKeysIn P c → ZKeysIn Q c := by
  intro c hc
  cases c with
  | zadd key mem s => exact h key hc
  | hset key f d => trivial
  | expire key secs => trivial
  | persist key => trivial

lemma TTLKeysIn_mono {P Q : String → Prop} (h : ∀ k, P k → Q k) :
    ∀ c : Cmd, TTLKeysIn P c → TTLKeysIn Q c := by
  intro c hc
  cases c with
  | zadd key mem s => trivial
  | hset key f d => trivial
  | expire key secs => exact h key hc
  | persist key => exact h key hc

lemma hash_frame_applyCmds {fld : String} :
    ∀ (cs : List Cmd) (st : RedisState), (∀ c ∈ cs, HashFieldOnly fld c) →
      ∀ k f, f ≠ fld → (applyCmds st cs).hash k f = st.hash k f := by
  intro cs
  induction cs with
  | nil => intro st _ k f _; rfl
  | cons c rest ih =>
    intro st hall k f hf
    have hstep : (applyCmd st c).hash k f = st.hash k f := by
      cases c with
      | hset key fld' d =>
        have heq : fld' = fld := hall (Cmd.hset key fld' d) (by simp)
        subst heq
        simp only [applyCmd]
        have hne : ¬(k = key ∧ f = fld') := fun hkf => hf hkf.2
        simp [hne]
      | expire key secs => rfl
      | persist key => rfl
      | zadd key mem s => rfl
    exact (ih (applyCmd st c) (fun c' hc' => hall c' (by simp [hc'])) k f hf).trans hstep

lemma zset_frame_applyCmds {P : String → Prop} :
    ∀ (cs : List Cmd) (st : RedisState), (∀ c ∈ cs, ZKeysIn P c) →
      ∀ k, ¬P k → (applyCmds st cs).zset k = st.zset k := by
  intro cs
  induction cs with
  | nil => intro st _ k _; rfl
  | cons c rest ih =>
    intro st hall k hk
    have hstep : (applyCmd st c).zset k = st.zset k := by
      cases c with
      | hset key fld d => rfl
      | expire key secs => rfl
      | persist key => rfl
      | zadd key mem s =>
        have hkey : P key := hall (Cmd.zadd key mem s) (by simp)
        simp only [applyCmd]
        have : ¬k = key := fun h => hk (h ▸ hkey)
        simp [this]
    exact (ih (applyCmd st c) (fun c' hc' => hall c' (by simp [hc'])) k hk).trans hstep

lemma ttl_frame_applyCmds {P : String → Prop} :
    ∀ (cs : List Cmd) (st : RedisState), (∀ c ∈ cs, TTLKeysIn P c) →
      ∀ k, ¬P k → (applyCmds st cs).ttl k = st.ttl k := by
  intro cs
  induction cs with
  | nil => intro st _ k _; rfl
  | cons c rest ih =>
    intro st hall k hk
    have hstep : (applyCmd st c).ttl k = st.ttl k := by
      cases c with
      | hset key fld d => rfl
      | expire key secs =>
        have hkey : P key := hall (Cmd.expire key secs) (by simp)
        simp only [applyCmd]
        have : ¬k = key := fun h => hk (h ▸ hkey)
        simp [this]
      | persist key =>
        have hkey : P key := hall (Cmd.persist key) (by simp)
        simp only [applyCmd]
        have : ¬k = key := fun h => hk (h ▸ hkey)
        simp [this]
      | zadd key mem s => rfl
    exact (ih (applyCmd st c) (fun c' hc' => hall c' (by simp [hc'])) k hk).trans hstep

lemma hash_frame_batches {fld : String} :
    ∀ (bs : List (List Cmd)) (st : RedisState),
      (∀ b ∈ bs, ∀ c ∈ b, HashFieldOnly fld c) →
      ∀ k f, f ≠ fld → (bs.foldl applyCmds st).hash k f = st.hash k f := by
  intro bs
  induction bs with
  | nil => intro st _ k f _; rfl
  | cons b rest ih =>
    intro st hall k f hf
    exact (ih (applyCmds st b) (fun b' hb' => hall b' (by simp [hb'])) k f hf).trans
      (hash_frame_applyCmds b st (hall b (by simp)) k f hf)

lemma zset_frame_batches {P : String → Prop} :
    ∀ (bs : List (List Cmd)) (st : RedisState),
      (∀ b ∈ bs, ∀ c ∈ b, ZKeysIn P c) →
      ∀ k, ¬P k → (bs.foldl applyCmds st).zset k = st.zset k := by
  intro bs
  induction bs with
  | nil => intro st _ k _; rfl
  | cons b rest ih =>
    intro st hall k hk
    exact (ih (applyCmds st b) (fun b' hb' => hall b' (by simp [hb'])) k hk).trans
      (zset_frame_applyCmds b st (hall b (by simp)) k hk)

lemma ttl_frame_batches {P : String → Prop} :
    ∀ (bs : List (List Cmd)) (st : RedisState),
      (∀ b ∈ bs, ∀ c ∈ b, TTLKeysIn P c) →
      ∀ k, ¬P k → (bs.foldl applyCmds st).ttl k = st.ttl k := by
  intro bs
  induction bs with
  | nil => intro st _ k _; rfl
  | cons b rest ih =>
    intro st hall k hk
    exact (ih (applyCmds st b) (fun b' hb' => hall b' (by simp [hb'])) k hk).trans
      (ttl_frame_applyCmds b st (hall b (by simp)) k hk)

/-! ## Shape of the generated batches -/

lemma retentionCmds_props (expire : Nat) (key : String) :
    ∀ c ∈ retentionCmds expire key,
      RetentionOK expire c ∧ ZScore0 c ∧ (∀ fld, HashFieldOnly fld c) ∧
      (∀ Q : String → Prop, ZKeysIn Q c) ∧
      (∀ Q : String → Prop, Q key → TTLKeysIn Q c) := by
  intro c hc
  unfold retentionCmds at hc
  by_cases h : 0 < expire
  · simp only [h, if_true, List.mem_singleton] at hc
    subst hc
    exact ⟨⟨rfl, h⟩, trivial, fun _ => trivial, fun _ => trivial, fun Q hQ => hQ⟩
  · simp only [h, if_false, List.mem_singleton] at hc
    subst hc
    exact ⟨Nat.eq_zero_of_not_pos h, trivial, fun _ => trivial, fun _ => trivial,
      fun Q hQ => hQ⟩

lemma retentionCmds_touch (expire : Nat) (key : String) :
    ∃ c ∈ retentionCmds expire key, TouchesTTL key c := by
  unfold retentionCmds
  by_cases h : 0 < expire
  · exact ⟨Cmd.expire key expire, by simp [h], rfl⟩
  · exact ⟨Cmd.persist key, by simp [h], rfl⟩

lemma zindexCmds_cons (expire : Nat) (kv : String × String)
    (pairs : List (String × String)) :
    zindexCmds expire (kv :: pairs) =
      (Cmd.zadd kv.1 kv.2 0 :: retentionCmds expire kv.1) ++ zindexCmds expire pairs := by
  simp [zindexCmds]

lemma zindexCmds_props (expire : Nat) :
    ∀ (pairs : List (String × String)), ∀ c ∈ zindexCmds expire pairs,
      RetentionOK expire c ∧ ZScore0 c ∧ (∀ fld, HashFieldOnly fld c) ∧
      (∀ Q : String → Prop, (∀ kv ∈ pairs, Q kv.1) → ZKeysIn Q c) ∧
      (∀ Q : String → Prop, (∀ kv ∈ pairs, Q kv.1) → TTLKeysIn Q c) := by
  intro pairs
  induction pairs with
  | nil => intro c hc; exact absurd hc (by simp [zindexCmds])
  | cons kv rest ih =>
    intro c hc
    rw [zindexCmds_cons] at hc
    rcases List.mem_append.1 hc with hhead | htail
    · rcases List.mem_cons.1 hhead with heq | hret
      · cases heq
        refine ⟨trivial, rfl, fun _ => trivial, ?_, fun _ _ => trivial⟩
        intro Q hQ
        exact hQ kv (by simp)
      · obtain ⟨h1, h2, h3, h4, h5⟩ := retentionCmds_props expire kv.1 c hret
        exact ⟨h1, h2, h3, fun Q _ => h4 Q, fun Q hQ => h5 Q (hQ kv (by simp))⟩
    · obtain ⟨h1, h2, h3, h4, h5⟩ := ih c htail
      exact ⟨h1, h2, h3,
        fun Q hQ => h4 Q (fun kv' hkv' => hQ kv' (by simp [hkv'])),
        fun Q hQ => h5 Q (fun kv' hkv' => hQ kv' (by simp [hkv']))⟩

lemma zindexCmds_zadd_mem (expire : Nat) {pairs : List (String × String)}
    {kv : String × String} (h : kv ∈ pairs) :
    Cmd.zadd kv.1 kv.2 0 ∈ zindexCmds expire pairs := by
  induction pairs with
  | nil => exact absurd h (by simp)
  | cons kv' rest ih =>
    rw [zindexCmds_cons]
    rcases List.mem_cons.1 h with heq | hmem
    · subst heq; simp
    · exact List.mem_append_right _ (ih hmem)

lemma zindexCmds_touch (expire : Nat) {pairs : List (String × String)}
    {kv : String × String} (h : kv ∈ pairs) :
    ∃ c ∈ zindexCmds expire pairs, TouchesTTL kv.1 c := by
  induction pairs with
  | nil => exact absurd h (by simp)
  | cons kv' rest ih =>
    rw [zindexCmds_cons]
    rcases List.mem_cons.1 h with heq | hmem
    · subst heq
      obtain ⟨c, hc, ht⟩ := retentionCmds_touch expire kv.1
      exact ⟨c, List.mem_append_left _ (by simp [hc]), ht⟩
    · obtain ⟨c, hc, ht⟩ := ih hmem
      exact ⟨c, List.mem_append_right _ hc, ht⟩

lemma mem_recordBatch {expire : Nat} {pk fld : String} {doc : VendorDoc}
    {pairs : List (String × String)} {c : Cmd} :
    c ∈ recordBatch expire pk fld doc pairs ↔
      c = Cmd.hset pk fld doc ∨ c ∈ retentionCmds expire pk ∨
        c ∈ zindexCmds expire pairs := by
  simp [recordBatch, List.mem_cons, List.mem_append]

lemma recordBatch_props (expire : Nat) (pk fld : String) (doc : VendorDoc)
    (pairs : List (String × String)) :
    ∀ c ∈ recordBatch expire pk fld doc pairs,
      RetentionOK expire c ∧ ZScore0 c ∧ HashFieldOnly fld c ∧
      (∀ Q : String → Prop, (∀ kv ∈ pairs, Q kv.1) → ZKeysIn Q c) ∧
      (∀ Q : String → Prop, Q pk → (∀ kv ∈ pairs, Q kv.1) → TTLKeysIn Q c) := by
  intro c hc
  rcases mem_recordBatch.1 hc with heq | hret | hidx
  · subst heq
    exact ⟨trivial, trivial, rfl, fun _ _ => trivial, fun _ _ _ => trivial⟩
  · obtain ⟨h1, h2, h3, h4, h5⟩ := retentionCmds_props expire pk c hret
    exact ⟨h1, h2, h3 fld, fun Q _ => h4 Q, fun Q hQ _ => h5 Q hQ⟩
  · obtain ⟨h1, h2, h3, h4, h5⟩ := zindexCmds_props expire pairs c hidx
    exact ⟨h1, h2, h3 fld, fun Q hQ => h4 Q hQ, fun Q _ hQ => h5 Q hQ⟩

lemma recordBatch_touch_primary (expire : Nat) (pk fld : String) (doc : VendorDoc)
    (pairs : List (String × String)) :
    ∃ c ∈ recordBatch expire pk fld doc pairs, TouchesTTL pk c := by
  obtain ⟨c, hc, ht⟩ := retentionCmds_touch expire pk
  exact ⟨c, mem_recordBatch.2 (Or.inr (Or.inl hc)), ht⟩

lemma recordBatch_touch_idx (expire : Nat) (pk fld : String) (doc : VendorDoc)
    {pairs : List (String × String)} {kv : String × String} (h : kv ∈ pairs) :
    ∃ c ∈ recordBatch expire pk fld doc pairs, TouchesTTL kv.1 c := by
  obtain ⟨c, hc, ht⟩ := zindexCmds_touch expire h
  exact ⟨c, mem_recordBatch.2 (Or.inr (Or.inr hc)), ht⟩

lemma recordBatch_zadd_mem (expire : Nat) (pk fld : String) (doc : VendorDoc)
    {pairs : List (String × String)} {kv : String × String} (h : kv ∈ pairs) :
    Cmd.zadd kv.1 kv.2 0 ∈ recordBatch expire pk fld doc pairs :=
  mem_recordBatch.2 (Or.inr (Or.inr (zindexCmds_zadd_mem expire h)))

/-! ## Per-vendor batch properties -/

lemma redhatBatches_props (expire : Nat) (cves : List RedhatCVE) :
    ∀ b ∈ redhatBatches expire cves, ∀ c ∈ b,
      RetentionOK expire c ∧ ZScore0 c ∧ HashFieldOnly "RedHat" c ∧
      ZKeysIn (fun k => k ∈ redhatIndexKeys cves) c ∧
      TTLKeysIn (fun k => k ∈ redhatPrimaryKeys cves ∨ k ∈ redhatIndexKeys cves) c := by
  intro b hb c hc
  obtain ⟨cve, hcve, rfl⟩ := List.mem_map.1 hb
  simp only [redhatRecordBatch] at hc
  obtain ⟨h1, h2, h3, h4, h5⟩ :=
    recordBatch_props expire (hashKeyPrefix ++ cve.name) "RedHat" (VendorDoc.redhat cve) _ c hc
  refine ⟨h1, h2, h3, h4 _ ?_, h5 _ ?_ ?_⟩
  · intro kv hkv
    obtain ⟨pkg, hpkg, rfl⟩ := List.mem_map.1 hkv
    exact List.mem_flatMap.2 ⟨cve, hcve, List.mem_map.2 ⟨pkg, hpkg, rfl⟩⟩
  · exact Or.inl (List.mem_map.2 ⟨cve, hcve, rfl⟩)
  · intro kv hkv
    obtain ⟨pkg, hpkg, rfl⟩ := List.mem_map.1 hkv
    exact Or.inr (List.mem_flatMap.2 ⟨cve, hcve, List.mem_map.2 ⟨pkg, hpkg, rfl⟩⟩)

lemma debianBatches_props (expire : Nat) (cves : List DebianCVE) :
    ∀ b ∈ debianBatches expire cves, ∀ c ∈ b,
      RetentionOK expire c ∧ ZScore0 c ∧ HashFieldOnly "Debian" c ∧
      ZKeysIn (fun k => k ∈ debianIndexKeys cves) c ∧
      TTLKeysIn (fun k => k ∈ debianPrimaryKeys cves ∨ k ∈ debianIndexKeys cves) c := by
  intro b hb c hc
  obtain ⟨cve, hcve, rfl⟩ := List.mem_map.1 hb
  simp only [debianRecordBatch] at hc
  obtain ⟨h1, h2, h3, h4, h5⟩ :=
    recordBatch_props expire (hashKeyPrefix ++ cve.cveID) "Debian" (VendorDoc.debian cve) _ c hc
  refine ⟨h1, h2, h3, h4 _ ?_, h5 _ ?_ ?_⟩
  · intro kv hkv
    obtain ⟨pkg, hpkg, rfl⟩ := List.mem_map.1 hkv
    exact List.mem_flatMap.2 ⟨cve, hcve, List.mem_map.2 ⟨pkg, hpkg, rfl⟩⟩
  · exact Or.inl (List.mem_map.2 ⟨cve, hcve, rfl⟩)
  · intro kv hkv
    obtain ⟨pkg, hpkg, rfl⟩ := List.mem_map.1 hkv
    exact Or.inr (List.mem_flatMap.2 ⟨cve, hcve, List.mem_map.2 ⟨pkg, hpkg, rfl⟩⟩)

lemma ubuntuBatches_props (expire : Nat) (cves : List UbuntuCVE) :
    ∀ b ∈ ubuntuBatches expire cves, ∀ c ∈ b,
      RetentionOK expire c ∧ ZScore0 c ∧ HashFieldOnly "Ubuntu" c ∧
      ZKeysIn (fun k => k ∈ ubuntuIndexKeys cves) c ∧
      TTLKeysIn (fun k => k ∈ ubuntuPrimaryKeys cves ∨ k ∈ ubuntuIndexKeys cves) c := by
  intro b hb c hc
  obtain ⟨cve, hcve, rfl⟩ := List.mem_map.1 hb
  simp only [ubuntuRecordBatch] at hc
  obtain ⟨h1, h2, h3, h4, h5⟩ :=
    recordBatch_props expire (hashKeyPrefix ++ cve.candidate) "Ubuntu" (VendorDoc.ubuntu cve) _ c hc
  refine ⟨h1, h2, h3, h4 _ ?_, h5 _ ?_ ?_⟩
  · intro kv hkv
    obtain ⟨pkg, hpkg, rfl⟩ := List.mem_map.1 hkv
    exact List.mem_flatMap.2 ⟨cve, hcve, List.mem_map.2 ⟨pkg, hpkg, rfl⟩⟩
  · exact Or.inl (List.mem_map.2 ⟨cve, hcve, rfl⟩)
  · intro kv hkv
    obtain ⟨pkg, hpkg, rfl⟩ := List.mem_map.1 hkv
    exact Or.inr (List.mem_flatMap.2 ⟨cve, hcve, List.mem_map.2 ⟨pkg, hpkg, rfl⟩⟩)

lemma microsoftBatches_props (expire : Nat) (cves : List MicrosoftCVE)
    (products : List MicrosoftProduct) :
    ∀ b ∈ insertMicrosoftBatches expire cves products, ∀ c ∈ b,
      RetentionOK expire c ∧ ZScore0 c ∧ HashFieldOnly "Microsoft" c ∧
      ZKeysIn (fun k => k ∈ microsoftKBIDKeys cves ∨ k ∈ microsoftProductKeys products) c ∧
      TTLKeysIn (fun k => k ∈ microsoftPrimaryKeys cves ∨
        k ∈ microsoftKBIDKeys cves ∨ k ∈ microsoftProductKeys products) c := by
  intro b hb c hc
  rcases List.mem_cons.1 hb with rfl | hrec
  · simp only [microsoftProductBatch] at hc
    obtain ⟨h1, h2, h3, h4, h5⟩ := zindexCmds_props expire _ c hc
    refine ⟨h1, h2, h3 _, h4 _ ?_, h5 _ ?_⟩
    · intro kv hkv
      obtain ⟨p, hp, rfl⟩ := List.mem_map.1 hkv
      exact Or.inr (List.mem_map.2 ⟨p, hp, rfl⟩)
    · intro kv hkv
      obtain ⟨p, hp, rfl⟩ := List.mem_map.1 hkv
      exact Or.inr (Or.inr (List.mem_map.2 ⟨p, hp, rfl⟩))
  · obtain ⟨cve, hcve, rfl⟩ := List.mem_map.1 hrec
    simp only [microsoftRecordBatch] at hc
    obtain ⟨h1, h2, h3, h4, h5⟩ :=
      recordBatch_props expire (hashKeyPrefix ++ cve.cveID) "Microsoft"
        (VendorDoc.microsoft cve) _ c hc
    refine ⟨h1, h2, h3, h4 _ ?_, h5 _ ?_ ?_⟩
    · intro kv hkv
      obtain ⟨kb, hkb, rfl⟩ := List.mem_map.1 hkv
      exact Or.inl (List.mem_flatMap.2 ⟨cve, hcve, List.mem_map.2 ⟨kb, hkb, rfl⟩⟩)
    · exact Or.inl (List.mem_map.2 ⟨cve, hcve, rfl⟩)
    · intro kv hkv
      obtain ⟨kb, hkb, rfl⟩ := List.mem_map.1 hkv
      exact Or.inr (Or.inl (List.mem_flatMap.2 ⟨cve, hcve, List.mem_map.2 ⟨kb, hkb, rfl⟩⟩))

/-! ## Pipelined execution lemmas -/

lemma execBatches_all_ok {α : Type} (f : α → List Cmd) :
    ∀ (cves : List α) (st : RedisState),
      execBatches st (cves.map (fun c => (f c, true)))
        = ((cves.map f).foldl applyCmds st, true) := by
  intro cves
  induction cves with
  | nil => intro st; rfl
  | cons c rest ih =>
    intro st
    simp only [List.map_cons, execBatches, if_true, List.foldl_cons]
    exact ih (applyCmds st (f c))

lemma execBatches_fail {α : Type} (f : α → List Cmd) :
    ∀ (pre : List α) (st : RedisState) (b : List Cmd) (rest : List (List Cmd × Bool)),
      execBatches st (pre.map (fun c => (f c, true)) ++ (b, false) :: rest)
        = ((pre.map f).foldl applyCmds st, false) := by
  intro pre
  induction pre with
  | nil => intro st b rest; rfl
  | cons c prest ih =>
    intro st b rest
    simp only [List.map_cons, List.cons_append, execBatches, if_true, List.foldl_cons]
    exact ih (applyCmds st (f c)) b rest

lemma retentionCmds_shape (expire : Nat) (key : String) :
    ∀ c ∈ retentionCmds expire key,
      (∀ k f d, c ≠ Cmd.hset k f d) ∧ (∀ k m s, c ≠ Cmd.zadd k m s) ∧ cmdKey c = key := by
  intro c hc
  unfold retentionCmds at hc
  by_cases h : 0 < expire
  · simp only [h, if_true, List.mem_singleton] at hc
    subst hc
    exact ⟨fun _ _ _ => by simp, fun _ _ _ => by simp, rfl⟩
  · simp only [h, if_false, List.mem_singleton] at hc
    subst hc
    exact ⟨fun _ _ _ => by simp, fun _ _ _ => by simp, rfl⟩

lemma zindexCmds_shape (expire : Nat) :
    ∀ (pairs : List (String × String)), ∀ c ∈ zindexCmds expire pairs,
      (∀ k f d, c ≠ Cmd.hset k f d) ∧ ∃ kv ∈ pairs, cmdKey c = kv.1 := by
  intro pairs
  induction pairs with
  | nil => intro c hc; exact absurd hc (by simp [zindexCmds])
  | cons kv rest ih =>
    intro c hc
    rw [zindexCmds_cons] at hc
    rcases List.mem_append.1 hc with hhead | htail
    · rcases List.mem_cons.1 hhead with heq | hret
      · cases heq
        exact ⟨fun _ _ _ => by simp, kv, by simp, rfl⟩
      · obtain ⟨h1, _, h3⟩ := retentionCmds_shape expire kv.1 c hret
        exact ⟨h1, kv, by simp, h3⟩
    · obtain ⟨h1, kv', hkv', h3⟩ := ih c htail
      exact ⟨h1, kv', by simp [hkv'], h3⟩

/-! ## Claim theorems: the write path -/

/-- C3.  Index consistency: after a successful `Insert(vendor, ...)`, for
every document D in the input and every package (KBID / product, for
Microsoft) referenced by one of D's sub-entries, the secondary-index key
for that (vendor, package) contains D's CVE identifier (resp. the product
display name) as a member with score 0. -/
theorem claim3_index_consistency :
    (∀ (st : RedisState) (expire : Nat) (cves : List RedhatCVE)
        (cve : RedhatCVE) (pkg : RedhatPackageState),
        cve ∈ cves → pkg ∈ cve.packageState →
        (cve.name, (0 : Int)) ∈
          (InsertRedhat st expire cves).zset (zindRedHatPrefix ++ pkg.packageName)) ∧
    (∀ (st : RedisState) (expire : Nat) (cves : List DebianCVE)
        (cve : DebianCVE) (pkg : DebianPackage),
        cve ∈ cves → pkg ∈ cve.package →
        (cve.cveID, (0 : Int)) ∈
          (InsertDebian st expire cves).zset (zindDebianPrefix ++ pkg.packageName)) ∧
    (∀ (st : RedisState) (expire : Nat) (cves : List UbuntuCVE)
        (cve : UbuntuCVE) (p : UbuntuPatch),
        cve ∈ cves → p ∈ cve.patches →
        (cve.candidate, (0 : Int)) ∈
          (InsertUbuntu st expire cves).zset (zindUbuntuPrefix ++ p.packageName)) ∧
    (∀ (st : RedisState) (expire : Nat) (cves : List MicrosoftCVE)
        (products : List MicrosoftProduct) (cve : MicrosoftCVE) (kb : MicrosoftKBID),
        cve ∈ cves → kb ∈ cve.kbIDs →
        (cve.cveID, (0 : Int)) ∈
          (InsertMicrosoft st expire cves products).zset (zindMicrosoftKBIDPrefix ++ kb.kbID)) ∧
    (∀ (st : RedisState) (expire : Nat) (cves : List MicrosoftCVE)
        (products : List MicrosoftProduct) (p : MicrosoftProduct),
        p ∈ products →
        (p.productName, (0 : Int)) ∈
          (InsertMicrosoft st expire cves products).zset
            (zindMicrosoftProductIDPrefix ++ p.productID)) := by
  refine ⟨?_, ?_, ?_, ?_, ?_⟩
  · intro st expire cves cve pkg hcve hpkg
    refine zmem_batches_set (redhatBatches expire cves) st
      (fun b hb c hc => (redhatBatches_props expire cves b hb c hc).2.1)
      ⟨redhatRecordBatch expire cve, List.mem_map.2 ⟨cve, hcve, rfl⟩, ?_⟩
    exact recordBatch_zadd_mem expire _ "RedHat" (VendorDoc.redhat cve)
      (List.mem_map.2 ⟨pkg, hpkg, rfl⟩)
  · intro st expire cves cve pkg hcve hpkg
    refine zmem_batches_set (debianBatches expire cves) st
      (fun b hb c hc => (debianBatches_props expire cves b hb c hc).2.1)
      ⟨debianRecordBatch expire cve, List.mem_map.2 ⟨cve, hcve, rfl⟩, ?_⟩
    exact recordBatch_zadd_mem expire _ "Debian" (VendorDoc.debian cve)
      (List.mem_map.2 ⟨pkg, hpkg, rfl⟩)
  · intro st expire cves cve p hcve hp
    refine zmem_batches_set (ubuntuBatches expire cves) st
      (fun b hb c hc => (ubuntuBatches_props expire cves b hb c hc).2.1)
      ⟨ubuntuRecordBatch expire cve, List.mem_map.2 ⟨cve, hcve, rfl⟩, ?_⟩
    exact recordBatch_zadd_mem expire _ "Ubuntu" (VendorDoc.ubuntu cve)
      (List.mem_map.2 ⟨p, hp, rfl⟩)
  · intro st expire cves products cve kb hcve hkb
    refine zmem_batches_set (insertMicrosoftBatches expire cves products) st
      (fun b hb c hc => (microsoftBatches_props expire cves products b hb c hc).2.1)
      ⟨microsoftRecordBatch expire cve, List.mem_cons.2 (Or.inr (List.mem_map.2 ⟨cve, hcve, rfl⟩)), ?_⟩
    exact recordBatch_zadd_mem expire _ "Microsoft" (VendorDoc.microsoft cve)
      (List.mem_map.2 ⟨kb, hkb, rfl⟩)
  · intro st expire cves products p hp
    refine zmem_batches_set (insertMicrosoftBatches expire cves products) st
      (fun b hb c hc => (microsoftBatches_props expire cves products b hb c hc).2.1)
      ⟨microsoftProductBatch expire products, List.mem_cons.2 (Or.inl rfl), ?_⟩
    exact zindexCmds_zadd_mem expire (List.mem_map.2 ⟨p, hp, rfl⟩)

/-- Witness for C3 at a concrete input: inserting `redEx` into the empty
store puts its CVE identifier into the "bash" package index with score 0. -/
theorem claim3_witness :
    redEx ∈ [redEx] ∧ redExPkg ∈ redEx.packageState ∧
      (redEx.name, (0 : Int)) ∈
        (InsertRedhat emptyState 0 [redEx]).zset
          (zindRedHatPrefix ++ redExPkg.packageName) :=
  ⟨by decide, by decide,
    claim3_index_consistency.1 emptyState 0 [redEx] redEx redExPkg
      (by decide) (by decide)⟩

/-- C4.  Retention: during every Insert, every touched key (the primary
CVE hash key and every secondary-index key written for the record) ends
with an expiry of `expire` seconds when the process-wide setting is
positive, and is made persistent (expiry removed) when it is zero. -/
theorem claim4_retention :
    (∀ (st : RedisState) (expire : Nat) (cves : List RedhatCVE) (cve : RedhatCVE),
        cve ∈ cves →
        (InsertRedhat st expire cves).ttl (hashKeyPrefix ++ cve.name)
            = (if 0 < expire then some expire else none) ∧
        ∀ pkg ∈ cve.packageState,
          (InsertRedhat st expire cves).ttl (zindRedHatPrefix ++ pkg.packageName)
            = (if 0 < expire then some expire else none)) ∧
    (∀ (st : RedisState) (expire : Nat) (cves : List DebianCVE) (cve : DebianCVE),
        cve ∈ cves →
        (InsertDebian st expire cves).ttl (hashKeyPrefix ++ cve.cveID)
            = (if 0 < expire then some expire else none) ∧
        ∀ pkg ∈ cve.package,
          (InsertDebian st expire cves).ttl (zindDebianPrefix ++ pkg.packageName)
            = (if 0 < expire then some expire else none)) ∧
    (∀ (st : RedisState) (expire : Nat) (cves : List UbuntuCVE) (cve : UbuntuCVE),
        cve ∈ cves →
        (InsertUbuntu st expire cves).ttl (hashKeyPrefix ++ cve.candidate)
            = (if 0 < expire then some expire else none) ∧
        ∀ p ∈ cve.patches,
          (InsertUbuntu st expire cves).ttl (zindUbuntuPrefix ++ p.packageName)
            = (if 0 < expire then some expire else none)) ∧
    (∀ (st : RedisState) (expire : Nat) (cves : List MicrosoftCVE)
        (products : List MicrosoftProduct),
        (∀ cve ∈ cves,
          (InsertMicrosoft st expire cves products).ttl (hashKeyPrefix ++ cve.cveID)
              = (if 0 < expire then some expire else none) ∧
          ∀ kb ∈ cve.kbIDs,
            (InsertMicrosoft st expire cves products).ttl (zindMicrosoftKBIDPrefix ++ kb.kbID)
              = (if 0 < expire then some expire else none)) ∧
        ∀ p ∈ products,
          (InsertMicrosoft st expire cves products).ttl
              (zindMicrosoftProductIDPrefix ++ p.productID)
            = (if 0 < expire then some expire else none)) := by
  refine ⟨?_, ?_, ?_, ?_⟩
  · intro st expire cves cve hcve
    have hall : ∀ b ∈ redhatBatches expire cves, ∀ c ∈ b, RetentionOK expire c :=
      fun b hb c hc => (redhatBatches_props expire cves b hb c hc).1
    have hbmem : redhatRecordBatch expire cve ∈ redhatBatches expire cves :=
      List.mem_map.2 ⟨cve, hcve, rfl⟩
    refine ⟨?_, ?_⟩
    · exact ttl_batches_set (redhatBatches expire cves) st hall
        ⟨_, hbmem, recordBatch_touch_primary expire _ "RedHat" (VendorDoc.redhat cve) _⟩
    · intro pkg hpkg
      exact ttl_batches_set (redhatBatches expire cves) st hall
        ⟨_, hbmem, recordBatch_touch_idx expire _ "RedHat" (VendorDoc.redhat cve)
          (List.mem_map.2 ⟨pkg, hpkg, rfl⟩)⟩
  · intro st expire cves cve hcve
    have hall : ∀ b ∈ debianBatches expire cves, ∀ c ∈ b, RetentionOK expire c :=
      fun b hb c hc => (debianBatches_props expire cves b hb c hc).1
    have hbmem : debianRecordBatch expire cve ∈ debianBatches expire cves :=
      List.mem_map.2 ⟨cve, hcve, rfl⟩
    refine ⟨?_, ?_⟩
    · exact ttl_batches_set (debianBatches expire cves) st hall
        ⟨_, hbmem, recordBatch_touch_primary expire _ "Debian" (VendorDoc.debian cve) _⟩
    · intro pkg hpkg
      exact ttl_batches_set (debianBatches expire cves) st hall
        ⟨_, hbmem, recordBatch_touch_idx expire _ "Debian" (VendorDoc.debian cve)
          (List.mem_map.2 ⟨pkg, hpkg, rfl⟩)⟩
  · intro st expire cves cve hcve
    have hall : ∀ b ∈ ubuntuBatches expire cves, ∀ c ∈ b, RetentionOK expire c :=
      fun b hb c hc => (ubuntuBatches_props expire cves b hb c hc).1
    have hbmem : ubuntuRecordBatch expire cve ∈ ubuntuBatches expire cves :=
      List.mem_map.2 ⟨cve, hcve, rfl⟩
    refine ⟨?_, ?_⟩
    · exact ttl_batches_set (ubuntuBatches expire cves) st hall
        ⟨_, hbmem, recordBatch_touch_primary expire _ "Ubuntu" (VendorDoc.ubuntu cve) _⟩
    · intro p hp
      exact ttl_batches_set (ubuntuBatches expire cves) st hall
        ⟨_, hbmem, recordBatch_touch_idx expire _ "Ubuntu" (VendorDoc.ubuntu cve)
          (List.mem_map.2 ⟨p, hp, rfl⟩)⟩
  · intro st expire cves products
    have hall : ∀ b ∈ insertMicrosoftBatches expire cves products, ∀ c ∈ b,
        RetentionOK expire c :=
      fun b hb c hc => (microsoftBatches_props expire cves products b hb c hc).1
    refine ⟨?_, ?_⟩
    · intro cve hcve
      have hbmem : microsoftRecordBatch expire cve ∈ insertMicrosoftBatches expire cves products :=
        List.mem_cons.2 (Or.inr (List.mem_map.2 ⟨cve, hcve, rfl⟩))
      refine ⟨?_, ?_⟩
      · exact ttl_batches_set (insertMicrosoftBatches expire cves products) st hall
          ⟨_, hbmem, recordBatch_touch_primary expire _ "Microsoft" (VendorDoc.microsoft cve) _⟩
      · intro kb hkb
        exact ttl_batches_set (insertMicrosoftBatches expire cves products) st hall
          ⟨_, hbmem, recordBatch_touch_idx expire _ "Microsoft" (VendorDoc.microsoft cve)
            (List.mem_map.2 ⟨kb, hkb, rfl⟩)⟩
    · intro p hp
      exact ttl_batches_set (insertMicrosoftBatches expire cves products) st hall
        ⟨microsoftProductBatch expire products, List.mem_cons.2 (Or.inl rfl),
          zindexCmds_touch expire (List.mem_map.2 ⟨p, hp, rfl⟩)⟩

/-- Witness for C4 at a concrete input: inserting `debEx` with a
5-second retention setting leaves a 5-second expiry on its primary key,
and with a zero setting the key is persistent. -/
theorem claim4_witness :
    debEx ∈ [debEx] ∧
      (InsertDebian emptyState 5 [debEx]).ttl (hashKeyPrefix ++ debEx.cveID) = some 5 ∧
      (InsertDebian emptyState 0 [debEx]).ttl (hashKeyPrefix ++ debEx.cveID) = none :=
  ⟨by decide,
    (claim4_retention.2.1 emptyState 5 [debEx] debEx (by decide)).1,
    (claim4_retention.2.1 emptyState 0 [debEx] debEx (by decide)).1⟩

/-- C10.  Frame property: each vendor's Insert writes only that vendor's
field of the primary CVE hash and only index keys of that vendor's prefix,
so every other vendor's hash fields, every other sorted-set key, and the
expiry of every untouched key are left unchanged. -/
theorem claim10_insert_frame :
    (∀ (st : RedisState) (expire : Nat) (cves : List RedhatCVE),
        (∀ k f, f ≠ "RedHat" → (InsertRedhat st expire cves).hash k f = st.hash k f) ∧
        (∀ k, k ∉ redhatIndexKeys cves → (InsertRedhat st expire cves).zset k = st.zset k) ∧
        (∀ k, k ∉ redhatPrimaryKeys cves → k ∉ redhatIndexKeys cves →
          (InsertRedhat st expire cves).ttl k = st.ttl k)) ∧
    (∀ (st : RedisState) (expire : Nat) (cves : List DebianCVE),
        (∀ k f, f ≠ "Debian" → (InsertDebian st expire cves).hash k f = st.hash k f) ∧
        (∀ k, k ∉ debianIndexKeys cves → (InsertDebian st expire cves).zset k = st.zset k) ∧
        (∀ k, k ∉ debianPrimaryKeys cves → k ∉ debianIndexKeys cves →
          (InsertDebian st expire cves).ttl k = st.ttl k)) ∧
    (∀ (st : RedisState) (expire : Nat) (cves : List UbuntuCVE),
        (∀ k f, f ≠ "Ubuntu" → (InsertUbuntu st expire cves).hash k f = st.hash k f) ∧
        (∀ k, k ∉ ubuntuIndexKeys cves → (InsertUbuntu st expire cves).zset k = st.zset k) ∧
        (∀ k, k ∉ ubuntuPrimaryKeys cves → k ∉ ubuntuIndexKeys cves →
          (InsertUbuntu st expire cves).ttl k = st.ttl k)) ∧
    (∀ (st : RedisState) (expire : Nat) (cves : List MicrosoftCVE)
        (products : List MicrosoftProduct),
        (∀ k f, f ≠ "Microsoft" →
          (InsertMicrosoft st expire cves products).hash k f = st.hash k f) ∧
        (∀ k, k ∉ microsoftKBIDKeys cves → k ∉ microsoftProductKeys products →
          (InsertMicrosoft st expire cves products).zset k = st.zset k) ∧
        (∀ k, k ∉ microsoftPrimaryKeys cves → k ∉ microsoftKBIDKeys cves →
          k ∉ microsoftProductKeys products →
          (InsertMicrosoft st expire cves products).ttl k = st.ttl k)) := by
  refine ⟨?_, ?_, ?_, ?_⟩
  · intro st expire cves
    refine ⟨?_, ?_, ?_⟩
    · intro k f hf
      exact hash_frame_batches (redhatBatches expire cves) st
        (fun b hb c hc => (redhatBatches_props expire cves b hb c hc).2.2.1) k f hf
    · intro k hk
      exact zset_frame_batches (redhatBatches expire cves) st
        (fun b hb c hc => (redhatBatches_props expire cves b hb c hc).2.2.2.1) k hk
    · intro k hk1 hk2
      exact ttl_frame_batches (redhatBatches expire cves) st
        (fun b hb c hc => (redhatBatches_props expire cves b hb c hc).2.2.2.2) k
        (not_or.2 ⟨hk1, hk2⟩)
  · intro st expire cves
    refine ⟨?_, ?_, ?_⟩
    · intro k f hf
      exact hash_frame_batches (debianBatches expire cves) st
        (fun b hb c hc => (debianBatches_props expire cves b hb c hc).2.2.1) k f hf
    · intro k hk
      exact zset_frame_batches (debianBatches expire cves) st
        (fun b hb c hc => (debianBatches_props expire cves b hb c hc).2.2.2.1) k hk
    · intro k hk1 hk2
      exact ttl_frame_batches (debianBatches expire cves) st
        (fun b hb c hc => (debianBatches_props expire cves b hb c hc).2.2.2.2) k
        (not_or.2 ⟨hk1, hk2⟩)
  · intro st expire cves
    refine ⟨?_, ?_, ?_⟩
    · intro k f hf
      exact hash_frame_batches (ubuntuBatches expire cves) st
        (fun b hb c hc => (ubuntuBatches_props expire cves b hb c hc).2.2.1) k f hf
    · intro k hk
      exact zset_frame_batches (ubuntuBatches expire cves) st
        (fun b hb c hc => (ubuntuBatches_props expire cves b hb c hc).2.2.2.1) k hk
    · intro k hk1 hk2
      exact ttl_frame_batches (ubuntuBatches expire cves) st
        (fun b hb c hc => (ubuntuBatches_props expire cves b hb c hc).2.2.2.2) k
        (not_or.2 ⟨hk1, hk2⟩)
  · intro st expire cves products
    refine ⟨?_, ?_, ?_⟩
    · intro k f hf
      exact hash_frame_batches (insertMicrosoftBatches expire cves products) st
        (fun b hb c hc => (microsoftBatches_props expire cves products b hb c hc).2.2.1) k f hf
    · intro k hk1 hk2
      exact zset_frame_batches (insertMicrosoftBatches expire cves products) st
        (fun b hb c hc => (microsoftBatches_props expire cves products b hb c hc).2.2.2.1) k
        (not_or.2 ⟨hk1, hk2⟩)
    · intro k hk1 hk2 hk3
      refine ttl_frame_batches (insertMicrosoftBatches expire cves products) st
        (fun b hb c hc => (microsoftBatches_props expire cves products b hb c hc).2.2.2.2) k ?_
      intro hor
      rcases hor with h | h | h
      · exact hk1 h
      · exact hk2 h
      · exact hk3 h

/-- Witness for C10 at a concrete input: inserting `redEx` does not change
the "Debian" field of its own primary key, a Debian index key, or the
expiry of an unrelated key. -/
theorem claim10_witness :
    ("Debian" ≠ "RedHat") ∧
      (InsertRedhat stDeb 5 [redEx]).hash "CVE#CVE-2024-1000" "Debian"
          = stDeb.hash "CVE#CVE-2024-1000" "Debian" ∧
      (InsertRedhat stDeb 5 [redEx]).zset "CVE#D#bash" = stDeb.zset "CVE#D#bash" ∧
      (InsertRedhat stDeb 5 [redEx]).ttl "CVE#D#bash" = stDeb.ttl "CVE#D#bash" :=
  ⟨by decide,
    (claim10_insert_frame.1 stDeb 5 [redEx]).1 "CVE#CVE-2024-1000" "Debian" (by decide),
    (claim10_insert_frame.1 stDeb 5 [redEx]).2.1 "CVE#D#bash" (by decide),
    (claim10_insert_frame.1 stDeb 5 [redEx]).2.2 "CVE#D#bash" (by decide) (by decide)⟩

/-- C8.  Per-record pipeline failure: each record's writes form one batch;
when some command of a record's batch fails at `Exec`, the whole Insert
call returns an error right there (later records are never processed),
while the records committed by the earlier, successful batches keep their
effects in the store (no rollback).  On the all-success path Insert applies
every record batch and reports success. -/
theorem claim8_batch_failure (expire : Nat) :
    (∀ (st : RedisState) (pre : List DebianCVE) (cve : DebianCVE)
        (rest : List (List Cmd × Bool)),
        execBatches st (pre.map (fun c => (debianRecordBatch expire c, true))
            ++ (debianRecordBatch expire cve, false) :: rest)
          = (InsertDebian st expire pre, false)) ∧
    (∀ (st : RedisState) (cves : List DebianCVE),
        execBatches st (cves.map (fun c => (debianRecordBatch expire c, true)))
          = (InsertDebian st expire cves, true)) ∧
    (∀ (st : RedisState) (pre : List RedhatCVE) (cve : RedhatCVE)
        (rest : List (List Cmd × Bool)),
        execBatches st (pre.map (fun c => (redhatRecordBatch expire c, true))
            ++ (redhatRecordBatch expire cve, false) :: rest)
          = (InsertRedhat st expire pre, false)) ∧
    (∀ (st : RedisState) (cves : List RedhatCVE),
        execBatches st (cves.map (fun c => (redhatRecordBatch expire c, true)))
          = (InsertRedhat st expire cves, true)) := by
  refine ⟨?_, ?_, ?_, ?_⟩
  · intro st pre cve rest
    exact execBatches_fail (debianRecordBatch expire) pre st (debianRecordBatch expire cve) rest
  · intro st cves
    exact execBatches_all_ok (debianRecordBatch expire) cves st
  · intro st pre cve rest
    exact execBatches_fail (redhatRecordBatch expire) pre st (redhatRecordBatch expire cve) rest
  · intro st cves
    exact execBatches_all_ok (redhatRecordBatch expire) cves st

/-- C9.  `InsertMicrosoft` writes the product-identifier → product-name
index for every product in a first batch of its own: that batch holds all
the product `ZADD`s, touches only product-index keys, contains no `HSET`,
and if it fails no CVE primary record is ever written. -/
theorem claim9_microsoft_product_first (expire : Nat) (cves : List MicrosoftCVE)
    (products : List MicrosoftProduct) :
    (∀ p ∈ products,
        Cmd.zadd (zindMicrosoftProductIDPrefix ++ p.productID) p.productName 0 ∈
          microsoftProductBatch expire products) ∧
    (∀ c ∈ microsoftProductBatch expire products,
        (∀ k f d, c ≠ Cmd.hset k f d) ∧
        ∃ p ∈ products, cmdKey c = zindMicrosoftProductIDPrefix ++ p.productID) ∧
    (insertMicrosoftBatches expire cves products
        = microsoftProductBatch expire products :: cves.map (microsoftRecordBatch expire)) ∧
    (∀ (st : RedisState) (rest : List (List Cmd × Bool)),
        execBatches st ((microsoftProductBatch expire products, false) :: rest) = (st, false)) := by
  refine ⟨?_, ?_, rfl, ?_⟩
  · intro p hp
    exact zindexCmds_zadd_mem expire (List.mem_map.2 ⟨p, hp, rfl⟩)
  · intro c hc
    simp only [microsoftProductBatch] at hc
    obtain ⟨h1, kv, hkv, h3⟩ := zindexCmds_shape expire _ c hc
    obtain ⟨p, hp, rfl⟩ := List.mem_map.1 hkv
    exact ⟨h1, p, hp, h3⟩
  · intro st rest
    rfl

/-- Witness for C9 at a concrete input: with one product, the product
`ZADD` is in the first batch and a failing first batch leaves the store
untouched. -/
theorem claim9_witness :
    msProdEx ∈ [msProdEx] ∧
      Cmd.zadd (zindMicrosoftProductIDPrefix ++ msProdEx.productID) msProdEx.productName 0 ∈
        microsoftProductBatch 0 [msProdEx] ∧
      execBatches emptyState ((microsoftProductBatch 0 [msProdEx], false) :: [])
        = (emptyState, false) :=
  ⟨by decide,
    (claim9_microsoft_product_first 0 [msEx] [msProdEx]).1 msProdEx (by decide),
    (claim9_microsoft_product_first 0 [msEx] [msProdEx]).2.2.2 emptyState []⟩

/-! ## Claim theorems: the read path -/

/-- C5 counterexample: with the vendor field absent from the (readable)
primary record, `GetDebian` and `GetUbuntu` return no result at all
instead of the default/empty document the claim promises for every
vendor. -/
theorem claim5_counterexample :
    GetDebian emptyState "CVE-2024-2000" = none ∧
      GetUbuntu emptyState "CVE-2024-3000" = none ∧
      GetRedhat emptyState "CVE-2024-1000" = some { name := "", packageState := [] } :=
  ⟨rfl, rfl, rfl⟩

/-- C5 as amended: when the primary-record read succeeds and the queried
vendor's field is absent from the hash, `GetRedhat` and `GetMicrosoft`
return the zero-valued document, while `GetDebian` and `GetUbuntu` return
no result (`nil`). -/
theorem claim5_point_reader_absent_field (st : RedisState) (cveID : String) :
    (st.hash (hashKeyPrefix ++ cveID) "RedHat" = none →
      GetRedhat st cveID = some { name := "", packageState := [] }) ∧
    (st.hash (hashKeyPrefix ++ cveID) "Microsoft" = none →
      GetMicrosoft st cveID = some { cveID := "", kbIDs := [] }) ∧
    (st.hash (hashKeyPrefix ++ cveID) "Debian" = none → GetDebian st cveID = none) ∧
    (st.hash (hashKeyPrefix ++ cveID) "Ubuntu" = none → GetUbuntu st cveID = none) := by
  refine ⟨?_, ?_, ?_, ?_⟩
  · intro h; simp [GetRedhat, h]
  · intro h; simp [GetMicrosoft, h]
  · intro h; simp [GetDebian, h]
  · intro h; simp [GetUbuntu, h]

/-- Witness for the amended C5 at a concrete input: the empty store. -/
theorem claim5_witness :
    emptyState.hash (hashKeyPrefix ++ "CVE-1") "RedHat" = none ∧
      emptyState.hash (hashKeyPrefix ++ "CVE-1") "Debian" = none ∧
      GetRedhat emptyState "CVE-1" = some { name := "", packageState := [] } ∧
      GetDebian emptyState "CVE-1" = none :=
  ⟨rfl, rfl,
    (claim5_point_reader_absent_field emptyState "CVE-1").1 rfl,
    (claim5_point_reader_absent_field emptyState "CVE-1").2.2.1 rfl⟩

/-- C7.  An unmapped major version makes the Debian/Ubuntu filtered
readers return the empty map for every store (so the secondary index
cannot influence the outcome) and, the return type having no error
component, without an error that aborts the caller. -/
theorem claim7_unsupported_release (major pkgName : String) :
    (debVerCodename major = none →
      ∀ (st : RedisState) (fixStatus : String),
        getCvesDebianWithFixStatus st major pkgName fixStatus = []) ∧
    (ubuntuVerCodename major = none →
      ∀ (st : RedisState) (fixStatus : List String),
        getCvesUbuntuWithFixStatus st major pkgName fixStatus = []) := by
  constructor
  · intro h st fixStatus
    simp [getCvesDebianWithFixStatus, h]
  · intro h st fixStatus
    simp [getCvesUbuntuWithFixStatus, h]

/-- Witness for C7 at a concrete input: major "99" is unmapped for both
vendors and yields the empty map on a store whose index is non-empty. -/
theorem claim7_witness :
    debVerCodename "99" = none ∧ ubuntuVerCodename "99" = none ∧
      getCvesDebianWithFixStatus stDeb "99" "bash" "open" = [] ∧
      getCvesUbuntuWithFixStatus stUbu "99" "bash" ["needed", "pending"] = [] :=
  ⟨by decide, by decide,
    (claim7_unsupported_release "99" "bash").1 (by decide) stDeb "open",
    (claim7_unsupported_release "99" "bash").2 (by decide) stUbu ["needed", "pending"]⟩

lemma multiCollect_mem {α : Type} (f : String → Option α) :
    ∀ (ids : List String) (l : List (String × α)), multiCollect f ids = some l →
      ∀ id doc, (id, doc) ∈ l → id ∈ ids ∧ f id = some doc := by
  intro ids
  induction ids with
  | nil =>
    intro l hl id doc hmem
    simp only [multiCollect, Option.some_inj] at hl
    subst hl
    exact absurd hmem (by simp)
  | cons id0 rest ih =>
    intro l hl id doc hmem
    simp only [multiCollect] at hl
    cases hf : f id0 with
    | none => rw [hf] at hl; cases hl
    | some d0 =>
      rw [hf] at hl
      cases hrest : multiCollect f rest with
      | none => rw [hrest] at hl; cases hl
      | some acc =>
        rw [hrest] at hl
        have hl' : (id0, d0) :: acc = l := by simpa using hl
        subst hl'
        rcases List.mem_cons.1 hmem with heq | hacc
        · have h1 : id = id0 := congrArg Prod.fst heq
          have h2 : doc = d0 := congrArg Prod.snd heq
          subst h1; subst h2
          exact ⟨by simp, hf⟩
        · obtain ⟨hin, hfd⟩ := ih acc hrest id doc hacc
          exact ⟨by simp [hin], hfd⟩

/-- C6.  Multi-get consistency: the key set of `GetRedhatMulti` /
`GetMicrosoftMulti` is a subset of the queried identifiers, every present
identifier maps to exactly the document the point reader returns, and a
batch failure other than the key-absent sentinel yields no results. -/
theorem claim6_multi_get (st : RedisState) (cveIDs : List String) :
    (∀ (e : PipeExec) (l : List (String × RedhatCVE)),
        GetRedhatMulti st e cveIDs = some l →
        ∀ id doc, (id, doc) ∈ l → id ∈ cveIDs ∧ GetRedhat st id = some doc) ∧
    GetRedhatMulti st PipeExec.failed cveIDs = none ∧
    (∀ (e : PipeExec) (l : List (String × MicrosoftCVE)),
        GetMicrosoftMulti st e cveIDs = some l →
        ∀ id doc, (id, doc) ∈ l → id ∈ cveIDs ∧ GetMicrosoft st id = some doc) ∧
    GetMicrosoftMulti st PipeExec.failed cveIDs = none := by
  refine ⟨?_, rfl, ?_, rfl⟩
  · intro e l hl id doc hmem
    cases e with
    | failed => cases hl
    | ok =>
      obtain ⟨hin, hfd⟩ := multiCollect_mem _ cveIDs.dedup l hl id doc hmem
      exact ⟨List.mem_dedup.1 hin, hfd⟩
    | keyAbsent =>
      obtain ⟨hin, hfd⟩ := multiCollect_mem _ cveIDs.dedup l hl id doc hmem
      exact ⟨List.mem_dedup.1 hin, hfd⟩
  · intro e l hl id doc hmem
    cases e with
    | failed => cases hl
    | ok =>
      obtain ⟨hin, hfd⟩ := multiCollect_mem _ cveIDs.dedup l hl id doc hmem
      exact ⟨List.mem_dedup.1 hin, hfd⟩
    | keyAbsent =>
      obtain ⟨hin, hfd⟩ := multiCollect_mem _ cveIDs.dedup l hl id doc hmem
      exact ⟨List.mem_dedup.1 hin, hfd⟩

/-- Witness for C6 at a concrete input: a successful one-element multi-get
on `stRed` agrees with the point reader. -/
theorem claim6_witness :
    GetRedhatMulti stRed PipeExec.ok ["CVE-2024-1000"]
        = some [("CVE-2024-1000", redEx)] ∧
      ("CVE-2024-1000", redEx) ∈ [(("CVE-2024-1000" : String), redEx)] ∧
      "CVE-2024-1000" ∈ ["CVE-2024-1000"] ∧ GetRedhat stRed "CVE-2024-1000" = some redEx :=
  ⟨by decide, by decide,
    (claim6_multi_get stRed ["CVE-2024-1000"]).1 PipeExec.ok [("CVE-2024-1000", redEx)]
      (by decide) "CVE-2024-1000" redEx (by decide)⟩

lemma redhatKeepFn_iff (cpe pkgName : String) (iwnf : Bool) (p : RedhatPackageState) :
    redhatKeepFn cpe pkgName iwnf p = true ↔
      (p.cpe = cpe ∧ p.packageName = pkgName ∧ p.fixState ≠ "Not affected" ∧
       p.fixState ≠ "New" ∧ (iwnf = true → p.fixState ≠ "Will not fix")) := by
  unfold redhatKeepFn
  split_ifs with h1 h2
  · simp only [Bool.or_eq_true, bne_iff_ne, beq_iff_eq] at h1
    simp only [Bool.false_eq_true, false_iff, not_and]
    tauto
  · simp only [Bool.and_eq_true, beq_iff_eq] at h2
    simp only [Bool.false_eq_true, false_iff, not_and]
    tauto
  · simp only [Bool.or_eq_true, bne_iff_ne, beq_iff_eq, not_or, not_not] at h1
    simp only [Bool.and_eq_true, beq_iff_eq, not_and] at h2
    constructor
    · intro _
      tauto
    · intro _
      rfl

lemma getUnfixedRedhat_mem {st : RedisState} {major pkgName : String} {iwnf : Bool}
    {cveID : String} {doc : RedhatCVE}
    (h : (cveID, doc) ∈ GetUnfixedCvesRedhat st major pkgName iwnf) :
    ∃ red, GetRedhat st cveID = some red ∧
      red.packageState.filter (redhatKeepFn (redhatCPE major) pkgName iwnf) ≠ [] ∧
      doc = { red with
        packageState :=
          red.packageState.filter (redhatKeepFn (redhatCPE major) pkgName iwnf) } := by
  unfold GetUnfixedCvesRedhat at h
  obtain ⟨cveID0, hz, heq⟩ := List.mem_filterMap.1 h
  cases hred : GetRedhat st cveID0 with
  | none => rw [hred] at heq; cases heq
  | some red =>
    rw [hred] at heq
    simp only at heq
    by_cases hemp :
        red.packageState.filter (redhatKeepFn (redhatCPE major) pkgName iwnf) = []
    · rw [if_pos hemp] at heq; cases heq
    · rw [if_neg hemp] at heq
      have hpair := Option.some_inj.1 heq
      have h1 : cveID0 = cveID := congrArg Prod.fst hpair
      have h2 := congrArg Prod.snd hpair
      subst h1
      exact ⟨red, hred, hemp, h2.symm⟩

/-- C2.  `GetUnfixedCvesRedhat` narrowing: for every candidate document, a
`PackageState` entry survives iff its CPE equals the platform string built
from the major version, its package name equals the query, its fix state
is neither "Not affected" nor "New", and, when `ignoreWillNotFix` is set,
not "Will not fix" either (with the flag unset such entries stay);
documents with no surviving entry are omitted from the result. -/
theorem claim2_redhat_unfixed_narrowing (st : RedisState) (major pkgName : String)
    (ignoreWillNotFix : Bool) :
    (∀ (cveID : String) (doc orig : RedhatCVE),
        (cveID, doc) ∈ GetUnfixedCvesRedhat st major pkgName ignoreWillNotFix →
        GetRedhat st cveID = some orig →
        doc.name = orig.name ∧ doc.packageState ≠ [] ∧
        (∀ p : RedhatPackageState,
          p ∈ doc.packageState ↔
            p ∈ orig.packageState ∧ p.cpe = redhatCPE major ∧ p.packageName = pkgName ∧
            p.fixState ≠ "Not affected" ∧ p.fixState ≠ "New" ∧
            (ignoreWillNotFix = true → p.fixState ≠ "Will not fix"))) ∧
    (∀ (cveID : String) (orig : RedhatCVE),
        GetRedhat st cveID = some orig →
        (∀ p ∈ orig.packageState,
          ¬(p.cpe = redhatCPE major ∧ p.packageName = pkgName ∧
            p.fixState ≠ "Not affected" ∧ p.fixState ≠ "New" ∧
            (ignoreWillNotFix = true → p.fixState ≠ "Will not fix"))) →
        ∀ doc, (cveID, doc) ∉ GetUnfixedCvesRedhat st major pkgName ignoreWillNotFix) := by
  constructor
  · intro cveID doc orig hmem horig
    obtain ⟨red, hred, hne, hdoc⟩ := getUnfixedRedhat_mem hmem
    rw [horig] at hred
    have hro : orig = red := Option.some_inj.1 hred
    subst hro
    subst hdoc
    refine ⟨rfl, hne, ?_⟩
    intro p
    rw [List.mem_filter, redhatKeepFn_iff]
  · intro cveID orig horig hall doc hmem
    obtain ⟨red, hred, hne, _⟩ := getUnfixedRedhat_mem hmem
    rw [horig] at hred
    have hro : orig = red := Option.some_inj.1 hred
    subst hro
    apply hne
    rw [List.filter_eq_nil_iff]
    intro p hp hkeep
    exact hall p hp ((redhatKeepFn_iff (redhatCPE major) pkgName ignoreWillNotFix p).1 hkeep)

/-- Witness for C2 at a concrete input: on `stRed` with
`ignoreWillNotFix = true` the candidate survives narrowed to exactly the
"Affected" entry. -/
theorem claim2_witness :
    ("CVE-2024-1000", ({ name := "CVE-2024-1000", packageState := [redExPkg] } : RedhatCVE))
        ∈ GetUnfixedCvesRedhat stRed "9" "bash" true ∧
      GetRedhat stRed "CVE-2024-1000" = some redEx ∧
      ({ name := "CVE-2024-1000", packageState := [redExPkg] } : RedhatCVE).packageState ≠ [] :=
  ⟨by decide, by decide,
    ((claim2_redhat_unfixed_narrowing stRed "9" "bash" true).1 "CVE-2024-1000"
        { name := "CVE-2024-1000", packageState := [redExPkg] } redEx
        (by decide) (by decide)).2.1⟩

lemma debianNarrowPkg_eq_some {pkgName codeName fixStatus : String}
    {pkg q : DebianPackage} :
    debianNarrowPkg pkgName codeName fixStatus pkg = some q ↔
      pkg.packageName = pkgName ∧
      pkg.release.filter
          (fun rel => rel.productName == codeName && rel.status == fixStatus) ≠ [] ∧
      q = { pkg with release :=
        pkg.release.filter (fun rel => rel.productName == codeName && rel.status == fixStatus) }
      := by
  simp only [debianNarrowPkg]
  split_ifs with h1 h2
  · simp only [bne_iff_ne] at h1
    constructor
    · intro h; cases h
    · rintro ⟨hp, _, _⟩; exact absurd hp h1
  · simp only [bne_iff_ne, not_not] at h1
    constructor
    · intro h; cases h
    · rintro ⟨_, hne, _⟩; exact absurd h2 hne
  · simp only [bne_iff_ne, not_not] at h1
    constructor
    · intro h; exact ⟨h1, h2, (Option.some_inj.1 h).symm⟩
    · rintro ⟨_, _, rfl⟩; rfl

lemma debianNarrowPkg_eq_none {pkgName codeName fixStatus : String}
    {pkg : DebianPackage} :
    debianNarrowPkg pkgName codeName fixStatus pkg = none ↔
      (pkg.packageName ≠ pkgName ∨
        pkg.release.filter
          (fun rel => rel.productName == codeName && rel.status == fixStatus) = []) := by
  simp only [debianNarrowPkg]
  split_ifs with h1 h2
  · simp only [bne_iff_ne] at h1
    simp [h1]
  · simp only [bne_iff_ne, not_not] at h1
    simp [h2]
  · simp only [bne_iff_ne, not_not] at h1
    simp [h1, h2]

lemma getCvesDebian_mem {st : RedisState} {major pkgName fixStatus cveID : String}
    {doc : DebianCVE}
    (h : (cveID, doc) ∈ getCvesDebianWithFixStatus st major pkgName fixStatus) :
    ∃ codeName deb, debVerCodename major = some codeName ∧
      GetDebian st cveID = some deb ∧
      deb.package.filterMap (debianNarrowPkg pkgName codeName fixStatus) ≠ [] ∧
      doc = { deb with
        package := deb.package.filterMap (debianNarrowPkg pkgName codeName fixStatus) }
      := by
  unfold getCvesDebianWithFixStatus at h
  cases hcn : debVerCodename major with
  | none => rw [hcn] at h; exact absurd h (by simp)
  | some codeName =>
    rw [hcn] at h
    obtain ⟨cveID0, hz, heq⟩ := List.mem_filterMap.1 h
    cases hdeb : GetDebian st cveID0 with
    | none => rw [hdeb] at heq; cases heq
    | some deb =>
      rw [hdeb] at heq
      simp only at heq
      by_cases hemp : deb.package.filterMap (debianNarrowPkg pkgName codeName fixStatus) = []
      · rw [if_pos hemp] at heq; cases heq
      · rw [if_neg hemp] at heq
        have hpair := Option.some_inj.1 heq
        have h1 : cveID0 = cveID := congrArg Prod.fst hpair
        have h2 := congrArg Prod.snd hpair
        subst h1
        exact ⟨codeName, deb, rfl, hdeb, hemp, h2.symm⟩

lemma statusFilterMap_eq {fixStatus : List String} (hnd : fixStatus.Nodup)
    (rp : UbuntuReleasePatch) :
    fixStatus.filterMap (fun s => if s == rp.status then some rp else none)
      = if rp.status ∈ fixStatus then [rp] else [] := by
  induction fixStatus with
  | nil => rfl
  | cons s rest ih =>
    have hnd' : rest.Nodup := (List.nodup_cons.1 hnd).2
    have hsnot : s ∉ rest := (List.nodup_cons.1 hnd).1
    by_cases hs : s = rp.status
    · subst hs
      simp [List.filterMap_cons]
      intro a ha heq
      exact hsnot (heq ▸ ha)
    · rw [List.filterMap_cons]
      have hb : (s == rp.status) = false := by simp [hs]
      rw [hb]
      simp only [Bool.false_eq_true, if_false]
      rw [ih hnd']
      have hmemiff : rp.status ∈ s :: rest ↔ rp.status ∈ rest := by
        simp [Ne.symm hs]
      rw [if_congr hmemiff rfl rfl]

lemma ubuntuReleaseFlatMap_eq (codeName : String) {fixStatus : List String}
    (hnd : fixStatus.Nodup) (rels : List UbuntuReleasePatch) :
    (rels.flatMap fun relPatch =>
        if relPatch.releaseName == codeName then
          fixStatus.filterMap fun s => if s == relPatch.status then some relPatch else none
        else [])
      = rels.filter
          (fun rp => rp.releaseName == codeName && fixStatus.contains rp.status) := by
  induction rels with
  | nil => rfl
  | cons rp rest ih =>
    rw [List.flatMap_cons, List.filter_cons, ih]
    by_cases hr : (rp.releaseName == codeName) = true
    · rw [hr, statusFilterMap_eq hnd rp]
      by_cases hmem : rp.status ∈ fixStatus
      · have hcont : fixStatus.contains rp.status = true := List.elem_iff.2 hmem
        rw [hcont, if_pos hmem]
        simp
      · have hcont : fixStatus.contains rp.status = false := by
          rw [Bool.eq_false_iff]
          intro hcontra
          exact hmem (List.elem_iff.1 hcontra)
        rw [hcont, if_neg hmem]
        simp
    · have hb : (rp.releaseName == codeName) = false := by
        rw [Bool.eq_false_iff]
        exact hr
      rw [hb]
      simp

lemma ubuntuNarrowPatch_eq_some {pkgName codeName : String} {fixStatus : List String}
    (hnd : fixStatus.Nodup) {p q : UbuntuPatch} :
    ubuntuNarrowPatch pkgName codeName fixStatus p = some q ↔
      p.packageName = pkgName ∧
      p.releasePatches.filter
          (fun rp => rp.releaseName == codeName && fixStatus.contains rp.status) ≠ [] ∧
      q = { p with releasePatches :=
        (p.releasePatches.filter
          (fun rp => rp.releaseName == codeName && fixStatus.contains rp.status)) }
      := by
  simp only [ubuntuNarrowPatch]
  rw [ubuntuReleaseFlatMap_eq codeName hnd p.releasePatches]
  split_ifs with h1 h2
  · simp only [bne_iff_ne] at h1
    constructor
    · intro h; cases h
    · rintro ⟨hp, _, _⟩; exact absurd hp h1
  · constructor
    · intro h; cases h
    · rintro ⟨_, hne, _⟩; exact absurd h2 hne
  · simp only [bne_iff_ne, not_not] at h1
    constructor
    · intro h; exact ⟨h1, h2, (Option.some_inj.1 h).symm⟩
    · rintro ⟨_, _, rfl⟩; rfl

lemma ubuntuNarrowPatch_eq_none {pkgName codeName : String} {fixStatus : List String}
    (hnd : fixStatus.Nodup) {p : UbuntuPatch} :
    ubuntuNarrowPatch pkgName codeName fixStatus p = none ↔
      (p.packageName ≠ pkgName ∨
        p.releasePatches.filter
          (fun rp => rp.releaseName == codeName && fixStatus.contains rp.status) = []) := by
  simp only [ubuntuNarrowPatch]
  rw [ubuntuReleaseFlatMap_eq codeName hnd p.releasePatches]
  split_ifs with h1 h2
  · simp only [bne_iff_ne] at h1
    simp [h1]
  · simp only [bne_iff_ne, not_not] at h1
    exact ⟨fun _ => Or.inr h2, fun _ => rfl⟩
  · simp only [bne_iff_ne, not_not] at h1
    constructor
    · intro h; cases h
    · rintro (h | h)
      · exact absurd h1 h
      · exact absurd h h2

lemma getCvesUbuntu_mem {st : RedisState} {major pkgName : String}
    {fixStatus : List String} {cveID : String} {doc : UbuntuCVE}
    (h : (cveID, doc) ∈ getCvesUbuntuWithFixStatus st major pkgName fixStatus) :
    ∃ codeName cve, ubuntuVerCodename major = some codeName ∧
      GetUbuntu st cveID = some cve ∧
      cve.patches.filterMap (ubuntuNarrowPatch pkgName codeName fixStatus) ≠ [] ∧
      doc = { cve with
        patches := cve.patches.filterMap (ubuntuNarrowPatch pkgName codeName fixStatus) }
      := by
  unfold getCvesUbuntuWithFixStatus at h
  cases hcn : ubuntuVerCodename major with
  | none => rw [hcn] at h; exact absurd h (by simp)
  | some codeName =>
    rw [hcn] at h
    obtain ⟨cveID0, hz, heq⟩ := List.mem_filterMap.1 h
    cases hcve : GetUbuntu st cveID0 with
    | none => rw [hcve] at heq; cases heq
    | some cve =>
      rw [hcve] at heq
      simp only at heq
      by_cases hemp : cve.patches.filterMap (ubuntuNarrowPatch pkgName codeName fixStatus) = []
      · rw [if_pos hemp] at heq; cases heq
      · rw [if_neg hemp] at heq
        have hpair := Option.some_inj.1 heq
        have h1 : cveID0 = cveID := congrArg Prod.fst hpair
        have h2 := congrArg Prod.snd hpair
        subst h1
        exact ⟨codeName, cve, rfl, hcve, hemp, h2.symm⟩

/-- C1.  Debian/Ubuntu filtered-reader narrowing: every returned document
keeps exactly the sub-entries whose package name equals the query, within
them exactly the release entries matching the resolved codename whose
status lies in the wanted set ("open" / "resolved" for Debian unfixed /
fixed, {"needed","pending"} / {"released"} for Ubuntu); sub-entries with
no surviving release entry are dropped and documents with no surviving
sub-entry are excluded. -/
theorem claim1_filtered_reader_narrowing (st : RedisState) (major pkgName : String) :
    (∀ (fixStatus codeName cveID : String) (doc orig : DebianCVE),
        debVerCodename major = some codeName →
        (cveID, doc) ∈ getCvesDebianWithFixStatus st major pkgName fixStatus →
        GetDebian st cveID = some orig →
        doc.cveID = orig.cveID ∧ doc.package ≠ [] ∧
        (∀ q : DebianPackage,
          q ∈ doc.package ↔
            ∃ p ∈ orig.package, p.packageName = pkgName ∧
              p.release.filter
                (fun rel => rel.productName == codeName && rel.status == fixStatus) ≠ [] ∧
              q = { p with release :=
                (p.release.filter
                  (fun rel => rel.productName == codeName && rel.status == fixStatus)) })) ∧
    (∀ (fixStatus codeName cveID : String) (orig : DebianCVE),
        debVerCodename major = some codeName →
        GetDebian st cveID = some orig →
        (∀ p ∈ orig.package, p.packageName = pkgName →
          p.release.filter
            (fun rel => rel.productName == codeName && rel.status == fixStatus) = []) →
        ∀ doc, (cveID, doc) ∉ getCvesDebianWithFixStatus st major pkgName fixStatus) ∧
    (∀ (fixStatus : List String) (codeName cveID : String) (doc orig : UbuntuCVE),
        fixStatus.Nodup →
        ubuntuVerCodename major = some codeName →
        (cveID, doc) ∈ getCvesUbuntuWithFixStatus st major pkgName fixStatus →
        GetUbuntu st cveID = some orig →
        doc.candidate = orig.candidate ∧ doc.patches ≠ [] ∧
        (∀ q : UbuntuPatch,
          q ∈ doc.patches ↔
            ∃ p ∈ orig.patches, p.packageName = pkgName ∧
              p.releasePatches.filter
                (fun rp => rp.releaseName == codeName && fixStatus.contains rp.status) ≠ [] ∧
              q = { p with releasePatches :=
                (p.releasePatches.filter
                  (fun rp => rp.releaseName == codeName && fixStatus.contains rp.status)) })) ∧
    (∀ (fixStatus : List String) (codeName cveID : String) (orig : UbuntuCVE),
        fixStatus.Nodup →
        ubuntuVerCodename major = some codeName →
        GetUbuntu st cveID = some orig →
        (∀ p ∈ orig.patches, p.packageName = pkgName →
          p.releasePatches.filter
            (fun rp => rp.releaseName == codeName && fixStatus.contains rp.status) = []) →
        ∀ doc, (cveID, doc) ∉ getCvesUbuntuWithFixStatus st major pkgName fixStatus) ∧
    (GetUnfixedCvesDebian st major pkgName
        = getCvesDebianWithFixStatus st major pkgName "open" ∧
      GetFixedCvesDebian st major pkgName
        = getCvesDebianWithFixStatus st major pkgName "resolved" ∧
      GetUnfixedCvesUbuntu st major pkgName
        = getCvesUbuntuWithFixStatus st major pkgName ["needed", "pending"] ∧
      GetFixedCvesUbuntu st major pkgName
        = getCvesUbuntuWithFixStatus st major pkgName ["released"]) := by
  refine ⟨?_, ?_, ?_, ?_, rfl, rfl, rfl, rfl⟩
  · intro fixStatus codeName cveID doc orig hcn hmem horig
    obtain ⟨codeName', deb, hcn', hdeb, hemp, hdoc⟩ := getCvesDebian_mem hmem
    rw [hcn] at hcn'
    have hcc : codeName' = codeName := (Option.some_inj.1 hcn').symm
    rw [hcc] at hemp hdoc
    rw [horig] at hdeb
    have hdo : deb = orig := (Option.some_inj.1 hdeb).symm
    rw [hdo] at hemp hdoc
    subst hdoc
    refine ⟨rfl, hemp, ?_⟩
    intro q
    rw [show ({ orig with package :=
          (orig.package.filterMap (debianNarrowPkg pkgName codeName fixStatus)) }
          : DebianCVE).package
        = orig.package.filterMap (debianNarrowPkg pkgName codeName fixStatus) from rfl]
    rw [List.mem_filterMap]
    simp only [debianNarrowPkg_eq_some]
  · intro fixStatus codeName cveID orig hcn horig hall doc hmem
    obtain ⟨codeName', deb, hcn', hdeb, hemp, _⟩ := getCvesDebian_mem hmem
    rw [hcn] at hcn'
    have hcc : codeName' = codeName := (Option.some_inj.1 hcn').symm
    rw [hcc] at hemp
    rw [horig] at hdeb
    have hdo : deb = orig := (Option.some_inj.1 hdeb).symm
    rw [hdo] at hemp
    apply hemp
    rw [List.filterMap_eq_nil_iff]
    intro p hp
    rw [debianNarrowPkg_eq_none]
    by_cases hname : p.packageName = pkgName
    · exact Or.inr (hall p hp hname)
    · exact Or.inl hname
  · intro fixStatus codeName cveID doc orig hnd hcn hmem horig
    obtain ⟨codeName', cve, hcn', hcve, hemp, hdoc⟩ := getCvesUbuntu_mem hmem
    rw [hcn] at hcn'
    have hcc : codeName' = codeName := (Option.some_inj.1 hcn').symm
    rw [hcc] at hemp hdoc
    rw [horig] at hcve
    have hdo : cve = orig := (Option.some_inj.1 hcve).symm
    rw [hdo] at hemp hdoc
    subst hdoc
    refine ⟨rfl, hemp, ?_⟩
    intro q
    rw [show ({ orig with patches :=
          (orig.patches.filterMap (ubuntuNarrowPatch pkgName codeName fixStatus)) }
          : UbuntuCVE).patches
        = orig.patches.filterMap (ubuntuNarrowPatch pkgName codeName fixStatus) from rfl]
    rw [List.mem_filterMap]
    simp only [ubuntuNarrowPatch_eq_some hnd]
  · intro fixStatus codeName cveID orig hnd hcn horig hall doc hmem
    obtain ⟨codeName', cve, hcn', hcve, hemp, _⟩ := getCvesUbuntu_mem hmem
    rw [hcn] at hcn'
    have hcc : codeName' = codeName := (Option.some_inj.1 hcn').symm
    rw [hcc] at hemp
    rw [horig] at hcve
    have hdo : cve = orig := (Option.some_inj.1 hcve).symm
    rw [hdo] at hemp
    apply hemp
    rw [List.filterMap_eq_nil_iff]
    intro p hp
    rw [ubuntuNarrowPatch_eq_none hnd]
    by_cases hname : p.packageName = pkgName
    · exact Or.inr (hall p hp hname)
    · exact Or.inl hname

/-- Witness for C1 at a concrete input: on `stDeb` with major "12"
(resolved to "bookworm") and status "open", the candidate document is
returned narrowed to exactly the open bookworm release entry. -/
theorem claim1_witness :
    debVerCodename "12" = some "bookworm" ∧
      ("CVE-2024-2000",
          ({ cveID := "CVE-2024-2000"
             package := [ { packageName := "bash"
                            release := [ { productName := "bookworm", status := "open" } ] } ] }
            : DebianCVE))
        ∈ getCvesDebianWithFixStatus stDeb "12" "bash" "open" ∧
      GetDebian stDeb "CVE-2024-2000" = some debEx ∧
      ({ cveID := "CVE-2024-2000"
         package := [ { packageName := "bash"
                        release := [ { productName := "bookworm", status := "open" } ] } ] }
        : DebianCVE).package ≠ [] :=
  ⟨by decide, by decide, by decide,
    ((claim1_filtered_reader_narrowing stDeb "12" "bash").1 "open" "bookworm" "CVE-2024-2000"
        { cveID := "CVE-2024-2000"
          package := [ { packageName := "bash"
                         release := [ { productName := "bookworm", status := "open" } ] } ] }
        debEx (by decide) (by decide) (by decide)).2.1⟩

end Gost
